import Mathlib

/-!
Verification development for the mcpx local MCP gateway.

This file shallowly embeds the request-handling core of the gateway
(`src/gateway/server.ts`) and the secret-reference resolver
(`cli/src/core/secrets.ts`) as executable Lean definitions, and proves
properties of the embedded code.

Modelling conventions:
- JavaScript strings are `List Char` (abbreviated `Str`).
- JavaScript records/maps are association lists in insertion order.
- Asynchronous I/O boundaries (the `fetch` call together with response
  parsing, and the stdio child-process connect/call) are oracles passed in
  as function arguments; the embedded code records every outbound request
  in a trace so that "the upstream was never contacted" is expressible.
- Thrown exceptions are `Except` errors; `UpstreamHttpErrorT` mirrors the
  `UpstreamHttpError` class.
-/

set_option maxHeartbeats 1000000

namespace Mcpx

/-- JavaScript string, modelled as its list of characters. -/
abbrev Str := List Char

/-- Boolean substring-prefix test used to model `String.prototype.startsWith`. -/
def startsWith (pat s : Str) : Bool := pat.isPrefixOf s

/-- Boolean substring containment, modelling `String.prototype.includes`. -/
def containsSub (pat : Str) : Str → Bool
  | [] => pat.isEmpty
  | c :: rest => pat.isPrefixOf (c :: rest) || containsSub pat rest

/-- The pattern `pat` occurs in `s` at index `i` (used to state first-match facts
about the regex replacement in `rewriteWwwAuthenticateResourceMetadata`). -/
def occursAt (pat s : Str) (i : Nat) : Prop := pat <+: s.drop i

instance (pat s : Str) (i : Nat) : Decidable (occursAt pat s i) := by
  unfold occursAt; infer_instance

/-- The empty pattern is contained in every string. -/
theorem containsSub_nil (s : Str) : containsSub [] s = true := by
  cases s <;> simp [containsSub, List.isEmpty, List.isPrefixOf]

/-- A substring occurrence witnessed by a split makes `containsSub` true. -/
theorem containsSub_of_split (pat a b : Str) : containsSub pat (a ++ (pat ++ b)) = true := by
  induction a with
  | nil =>
    simp only [List.nil_append]
    cases pat with
    | nil => exact containsSub_nil b
    | cons c cs =>
      show containsSub (c :: cs) (c :: (cs ++ b)) = true
      unfold containsSub
      rw [Bool.or_eq_true]
      left
      rw [List.isPrefixOf_iff_prefix]
      exact ⟨b, by simp⟩
  | cons c a' ih =>
    show containsSub pat (c :: (a' ++ (pat ++ b))) = true
    unfold containsSub
    rw [Bool.or_eq_true]
    exact Or.inr ih

/-! ## JSON values and JSON-RPC messages -/

/-- A JSON value. Objects are association lists in key insertion order. -/
inductive JsonV where
  | null : JsonV
  | bool (b : Bool) : JsonV
  | num (n : Int) : JsonV
  | str (s : Str) : JsonV
  | arr (xs : List JsonV) : JsonV
  | obj (fields : List (Str × JsonV)) : JsonV

/-- A JSON-RPC id: string, number, or null. -/
inductive RpcId where
  | str (s : Str) : RpcId
  | num (n : Int) : RpcId
  | null : RpcId
deriving DecidableEq

/-- The value found at the `method` key of a request object: a string, or some
non-string JSON value. -/
inductive MethodV where
  | strVal (s : Str) : MethodV
  | nonString : MethodV
deriving DecidableEq

/-- An inbound JSON-RPC request object. `none` components model absent keys
(for `method`, also non-string values are kept distinct via `MethodV`). -/
structure JsonRpcRequest where
  id : Option RpcId
  method : Option MethodV
  params : Option JsonV

/-- A JSON-RPC error object. -/
structure RpcError where
  code : Int
  message : Str
  data : Option JsonV

/-- An outbound JSON-RPC response (the constant `jsonrpc : "2.0"` field is
left implicit). -/
structure JsonRpcResponse where
  id : RpcId
  result : Option JsonV
  error : Option RpcError

/-- Embeds `makeError` from `server.ts`. -/
def makeError (id : RpcId) (code : Int) (message : Str) (data : Option JsonV) : JsonRpcResponse :=
  { id := id, result := none, error := some { code := code, message := message, data := data } }

/-- Embeds `makeResult` from `server.ts`. -/
def makeResult (id : RpcId) (result : JsonV) : JsonRpcResponse :=
  { id := id, result := some result, error := none }

/-- Embeds the `UpstreamHttpError` class: HTTP status, raw body text and the
optional `www-authenticate` header captured from a non-2xx upstream response. -/
structure UpstreamHttpErrorT where
  upstreamName : Str
  status : Nat
  bodyText : Str
  wwwAuthenticate : Option Str
deriving DecidableEq

/-- Embeds `isAuthChallenge`: an `UpstreamHttpError` with status 401 or 403
(the `instanceof` test is the type of the argument). -/
def isAuthChallengeHttp (e : UpstreamHttpErrorT) : Bool :=
  e.status = 401 || e.status = 403

/-! ## handleRequestObject (gateway-local methods) -/

/-- Property lookup on a JSON value, modelling optional chaining
`(params as { k?: unknown } | undefined)?.k`. -/
def jGet (k : Str) : Option JsonV → Option JsonV
  | some (.obj fields) => (fields.find? (fun p => p.1 = k)).map (fun p => p.2)
  | _ => none

def mInitialize : Str := "initialize".data
def mNotifInit : Str := "notifications/initialized".data
def mPing : Str := "ping".data
def kProtocolVersion : Str := "protocolVersion".data
def kCapabilities : Str := "capabilities".data
def kTools : Str := "tools".data
def kResources : Str := "resources".data
def kPrompts : Str := "prompts".data
def kServerInfo : Str := "serverInfo".data
def kName : Str := "name".data
def kVersion : Str := "version".data
def kOk : Str := "ok".data
def nameMcpx : Str := "mcpx".data
def defaultProtocolVersion : Str := "2025-11-25".data
def msgMissingMethod : Str := "Invalid JSON-RPC request: missing method.".data

/-- Requested protocol version: `params.protocolVersion` when it is a
non-empty string, else `"2025-11-25"`. -/
def protoOf (params : Option JsonV) : Str :=
  match jGet kProtocolVersion params with
  | some (.str s) => if s.isEmpty then defaultProtocolVersion else s
  | _ => defaultProtocolVersion

/-- The synthesized `initialize` result object. -/
def initializeResult (params : Option JsonV) (version : Str) : JsonV :=
  .obj [ (kProtocolVersion, .str (protoOf params)),
         (kCapabilities, .obj [ (kTools, .obj []), (kResources, .obj []), (kPrompts, .obj []) ]),
         (kServerInfo, .obj [ (kName, .str nameMcpx), (kVersion, .str version) ]) ]

/-- The `ping` result object. -/
def pingResult : JsonV := .obj [ (kOk, .bool true) ]

/-- Embeds `handleRequestObject` (lines 909-985 of `server.ts`). The gateway-local
methods (`initialize`, `notifications/initialized`, `ping`) and the
missing-method check are embedded concretely; everything after them (the
configuration load, stdio-pool reconciliation and the dispatch to list/call
handlers) is abstracted by `oracle`, which may throw an `UpstreamHttpError`
and otherwise always yields one response — exactly the behaviour of the
remaining source branches. -/
def handleRequestObjectM (oracle : JsonRpcRequest → Except UpstreamHttpErrorT JsonRpcResponse)
    (version : Str) (req : JsonRpcRequest) : Except UpstreamHttpErrorT (Option JsonRpcResponse) :=
  let id := req.id.getD RpcId.null
  match req.method with
  | some (.strVal m) =>
    if m.isEmpty then .ok (some (makeError id (-32600) msgMissingMethod none))
    else if m = mInitialize then .ok (some (makeResult id (initializeResult req.params version)))
    else if m = mNotifInit then .ok none
    else if m = mPing then .ok (some (makeResult id pingResult))
    else (oracle req).map some
  | _ => .ok (some (makeError id (-32600) msgMissingMethod none))

/-! ## Percent-encoding helpers -/

/-- Concatenated image of a list under a list-valued function (JS `flatMap`). -/
def joinMap (f : α → List β) : List α → List β
  | [] => []
  | x :: xs => f x ++ joinMap f xs

/-- UTF-8 bytes of a unicode scalar value. -/
def utf8Bytes (n : Nat) : List Nat :=
  if n < 0x80 then [n]
  else if n < 0x800 then [0xC0 + n / 64, 0x80 + n % 64]
  else if n < 0x10000 then [0xE0 + n / 4096, 0x80 + (n / 64) % 64, 0x80 + n % 64]
  else [0xF0 + n / 262144, 0x80 + (n / 4096) % 64, 0x80 + (n / 64) % 64, 0x80 + n % 64]

/-- Uppercase hex digit for a value below 16. -/
def hexUpperDigit (n : Nat) : Char :=
  if n < 10 then Char.ofNat (48 + n) else Char.ofNat (65 + n - 10)

/-- Percent-encoding of one byte, uppercase hex. -/
def pctByte (b : Nat) : Str := [ '%', hexUpperDigit (b / 16), hexUpperDigit (b % 16) ]

/-- ASCII letter or digit. -/
def isAsciiAlphaNum (c : Char) : Bool :=
  (48 ≤ c.toNat && c.toNat ≤ 57) || (65 ≤ c.toNat && c.toNat ≤ 90) || (97 ≤ c.toNat && c.toNat ≤ 122)

/-- Characters `encodeURIComponent` leaves unescaped. -/
def uriUnreserved (c : Char) : Bool :=
  isAsciiAlphaNum c || (c ∈ "-_.!~*'()".data)

/-- Embeds JavaScript `encodeURIComponent`. -/
def encodeURIComponent (s : Str) : Str :=
  joinMap (fun c => if uriUnreserved c then [c] else joinMap pctByte (utf8Bytes c.toNat)) s

/-- Characters the `application/x-www-form-urlencoded` serializer leaves
unescaped (used by `URLSearchParams.set`). -/
def formUnreserved (c : Char) : Bool :=
  isAsciiAlphaNum c || (c ∈ "*-._".data)

/-- Embeds the `application/x-www-form-urlencoded` value serializer. -/
def formUrlEncode (s : Str) : Str :=
  joinMap (fun c =>
    if c = ' ' then ['+']
    else if formUnreserved c then [c]
    else joinMap pctByte (utf8Bytes c.toNat)) s

/-- Embeds `appendUpstreamQuery` for the URLs the gateway passes it (query-free
absolute http URLs): `URL.searchParams.set` appends `?upstream=<form-encoded>`
and `URL.toString` leaves the rest of such a URL unchanged. -/
def appendUpstreamQuery (url : Str) : Option Str → Str
  | none => url
  | some upstream => url ++ "?upstream=".data ++ formUrlEncode upstream

/-! ## WWW-Authenticate resource_metadata rewriting -/

def patResourceMetadataEq : Str := "resource_metadata=".data
def patResourceMetadataQ : Str := "resource_metadata=\"".data
def litAppendRM : Str := ", resource_metadata=\"".data

/-- Characters before the first `'"'` together with the rest after it (the
`[^"]*"` part of the regex): fails when no closing quote exists. -/
def takeUntilQuote : Str → Option (Str × Str)
  | [] => none
  | c :: rest =>
    if c = '"' then some ([], rest)
    else (takeUntilQuote rest).map (fun p => (c :: p.1, p.2))

/-- First-match replacement of the JavaScript regex
`/resource_metadata="[^"]*"/` with `resource_metadata="<localUrl>"`: scans left
to right; a position matches when the literal `resource_metadata="` starts
there and a closing quote follows. -/
def replaceFirstResourceMetadata (localUrl : Str) : Str → Str
  | [] => []
  | c :: rest =>
    if patResourceMetadataQ.isPrefixOf (c :: rest) then
      match takeUntilQuote ((c :: rest).drop patResourceMetadataQ.length) with
      | some p => patResourceMetadataQ ++ localUrl ++ '"' :: p.2
      | none => c :: replaceFirstResourceMetadata localUrl rest
    else c :: replaceFirstResourceMetadata localUrl rest

/-- Embeds `rewriteWwwAuthenticateResourceMetadata` (lines 183-189): replace the
first quoted `resource_metadata="..."` when the header mentions
`resource_metadata=`, else append one. The JavaScript `$`-substitution rules in
the replacement string are not modelled; theorems using this function go
through `replaceFirstResourceMetadata`, which splices the local URL verbatim,
matching the source for URLs without `$`. -/
def rewriteWwwAuthenticateResourceMetadata (headerValue localResourceMetadataUrl : Str) : Str :=
  if containsSub patResourceMetadataEq headerValue then
    replaceFirstResourceMetadata localResourceMetadataUrl headerValue
  else headerValue ++ litAppendRM ++ localResourceMetadataUrl ++ ['"']

/-- Round-trip of `takeUntilQuote` on a quote-free prefix. -/
theorem takeUntilQuote_append (u post : Str) (hu : '"' ∉ u) :
    takeUntilQuote (u ++ '"' :: post) = some (u, post) := by
  induction u with
  | nil => simp [takeUntilQuote]
  | cons c u' ih =>
    have hc : ¬ (c = '"') := fun h => hu (by simp [h])
    have hu' : '"' ∉ u' := fun h => hu (List.mem_cons_of_mem c h)
    simp [takeUntilQuote, hc, ih hu']

/-- When no match starts before the boundary, the first-match replacement
rewrites exactly the occurrence at the boundary. -/
theorem replaceFirstResourceMetadata_boundary (localUrl pre u post : Str)
    (hu : '"' ∉ u)
    (hpre : ∀ i, i < pre.length →
      ¬ occursAt patResourceMetadataQ (pre ++ patResourceMetadataQ ++ (u ++ '"' :: post)) i) :
    replaceFirstResourceMetadata localUrl (pre ++ patResourceMetadataQ ++ (u ++ '"' :: post)) =
      pre ++ patResourceMetadataQ ++ (localUrl ++ '"' :: post) := by
  induction pre with
  | nil =>
    simp only [List.nil_append]
    obtain ⟨c0, qt, hq⟩ : ∃ c0 qt, patResourceMetadataQ = c0 :: qt := ⟨_, _, rfl⟩
    rw [hq, List.cons_append]
    unfold replaceFirstResourceMetadata
    rw [← List.cons_append, ← hq]
    have hpref : patResourceMetadataQ.isPrefixOf (patResourceMetadataQ ++ (u ++ '"' :: post)) = true := by
      rw [List.isPrefixOf_iff_prefix]; exact List.prefix_append _ _
    rw [hpref]
    simp only [if_true, List.drop_left, takeUntilQuote_append u post hu, List.append_assoc]
  | cons c pre' ih =>
    have h0 := hpre 0 (by simp)
    have h0' : patResourceMetadataQ.isPrefixOf
        ((c :: pre') ++ patResourceMetadataQ ++ (u ++ '"' :: post)) = false := by
      rw [Bool.eq_false_iff]
      intro hpf
      exact h0 (by simpa [occursAt, List.isPrefixOf_iff_prefix] using hpf)
    show replaceFirstResourceMetadata localUrl
        (c :: (pre' ++ patResourceMetadataQ ++ (u ++ '"' :: post))) = _
    unfold replaceFirstResourceMetadata
    have h0'' : patResourceMetadataQ.isPrefixOf
        (c :: (pre' ++ patResourceMetadataQ ++ (u ++ '"' :: post))) = false := by
      simpa using h0'
    rw [h0'']
    simp only [Bool.false_eq_true, if_false, List.cons_append]
    rw [ih (fun i hi => by
      have := hpre (i + 1) (by simpa using Nat.succ_lt_succ hi)
      simpa [occursAt, List.drop] using this)]

/-- The replacement branch of the rewrite, for a header of the canonical shape
with a first quoted occurrence at the boundary. -/
theorem rewrite_replace_case (localUrl pre u post : Str)
    (hu : '"' ∉ u)
    (hpre : ∀ i, i < pre.length →
      ¬ occursAt patResourceMetadataQ (pre ++ patResourceMetadataQ ++ (u ++ '"' :: post)) i) :
    rewriteWwwAuthenticateResourceMetadata (pre ++ patResourceMetadataQ ++ (u ++ '"' :: post)) localUrl =
      pre ++ patResourceMetadataQ ++ (localUrl ++ '"' :: post) := by
  have hc : containsSub patResourceMetadataEq (pre ++ patResourceMetadataQ ++ (u ++ '"' :: post)) = true := by
    have hsplit : pre ++ patResourceMetadataQ ++ (u ++ '"' :: post) =
        pre ++ (patResourceMetadataEq ++ ('"' :: (u ++ '"' :: post))) := by
      have : patResourceMetadataQ = patResourceMetadataEq ++ ['"'] := by decide
      simp [this]
    rw [hsplit]
    exact containsSub_of_split _ _ _
  unfold rewriteWwwAuthenticateResourceMetadata
  rw [hc]
  simp only [if_true]
  exact replaceFirstResourceMetadata_boundary localUrl pre u post hu hpre

/-- The append branch of the rewrite, for a header without `resource_metadata=`. -/
theorem rewrite_append_case (headerValue localUrl : Str)
    (h : containsSub patResourceMetadataEq headerValue = false) :
    rewriteWwwAuthenticateResourceMetadata headerValue localUrl =
      headerValue ++ litAppendRM ++ localUrl ++ ['"'] := by
  unfold rewriteWwwAuthenticateResourceMetadata
  rw [h]
  simp

/-! ## The POST /mcp front -/

/-- Decimal digits of a natural number. -/
def natToStr (n : Nat) : Str := Nat.toDigits 10 n

/-- The `message` property of an `UpstreamHttpError` as built by its
constructor. -/
def UpstreamHttpErrorT.errMessage (e : UpstreamHttpErrorT) : Str :=
  "Upstream ".data ++ e.upstreamName ++ " returned HTTP ".data ++ natToStr e.status
    ++ ": ".data ++ e.bodyText.take 400

/-- Body of a JSON-framed POST /mcp response: a single response object or an
array of responses. -/
inductive RpcBody where
  | single (r : JsonRpcResponse) : RpcBody
  | array (rs : List JsonRpcResponse) : RpcBody

/-- An HTTP response of the gateway front, at the level of detail the claims
need: a 200 JSON response, a 200 SSE stream, an upstream auth challenge (the
only responses carrying a `www-authenticate` header), or a 500 error. -/
inductive HttpOut where
  | ok200Json (sessionId : Bool) (body : RpcBody) : HttpOut
  | ok200Sse (sessionId : Bool) (events : List JsonRpcResponse) : HttpOut
  | challenge (status : Nat) (wwwAuthenticate : Option Str) (body : Str) : HttpOut
  | error500 (body : JsonRpcResponse) : HttpOut

/-- True exactly when the output is a 200 JSON response whose body is an array. -/
def HttpOut.bodyIsArray : HttpOut → Bool
  | .ok200Json _ (.array _) => true
  | _ => false

def jsonUpstreamAuthRequired : Str := "\x7b\"error\":\"upstream_auth_required\"\x7d".data
def wellKnownOPR : Str := "/.well-known/oauth-protected-resource".data

/-- The local gateway's oauth-protected-resource URL, with `?upstream=` kept
when the request was scoped (lines 1228-1231). -/
def localResourceMetadataUrl (origin : Str) (scope : Option Str) : Str :=
  appendUpstreamQuery (origin ++ wellKnownOPR) scope

/-- Embeds the auth-challenge catch handler (lines 1224-1238): mirror the
status; when the upstream supplied `www-authenticate`, set it rewritten via
`rewriteWwwAuthenticateResourceMetadata`; send the upstream body, falling back
to `{"error":"upstream_auth_required"}` when that body is empty. -/
def authChallengeOut (e : UpstreamHttpErrorT) (origin : Str) (scope : Option Str) : HttpOut :=
  .challenge e.status
    (e.wwwAuthenticate.map (fun w =>
      rewriteWwwAuthenticateResourceMetadata w (localResourceMetadataUrl origin scope)))
    (if e.bodyText.isEmpty then jsonUpstreamAuthRequired else e.bodyText)

/-- In-order dispatch of request objects (the body of the `for` loop over a
batch, lines 1164-1191): returns the requests that were dispatched and either
the collected responses (null responses contribute nothing) or the first
thrown error. -/
def dispatchList (oracle : JsonRpcRequest → Except UpstreamHttpErrorT JsonRpcResponse)
    (version : Str) : List JsonRpcRequest →
      List JsonRpcRequest × Except UpstreamHttpErrorT (List JsonRpcResponse)
  | [] => ([], .ok [])
  | r :: rest =>
    match handleRequestObjectM oracle version r with
    | .error e => ([r], .error e)
    | .ok o =>
      let next := dispatchList oracle version rest
      (r :: next.1, next.2.map (fun rs => o.toList ++ rs))

/-- The request objects of a parsed POST body: a singleton for a non-array
body, the elements for an array body. -/
def itemsOf : JsonRpcRequest ⊕ List JsonRpcRequest → List JsonRpcRequest
  | .inl r => [r]
  | .inr rs => rs

/-- JSON framing of the collected responses (lines 1218-1222): a single object
when exactly one response was produced, an array otherwise. -/
def frameJson : List JsonRpcResponse → RpcBody
  | [r] => .single r
  | rs => .array rs

/-- Embeds the POST /mcp body-handling path (lines 1157-1247): in-order
dispatch of the single request or batch, JSON or SSE framing of the collected
responses, the initialize session header, and the catch handler that hoists
upstream auth challenges (other escaped errors become a 500). Local auth, body
reading, the 2MB cap and JSON parsing happen before this point. Also returns
the list of request objects that were dispatched. -/
def postMcpM (oracle : JsonRpcRequest → Except UpstreamHttpErrorT JsonRpcResponse)
    (version origin : Str) (scope : Option Str) (acceptsSse : Bool)
    (parsed : JsonRpcRequest ⊕ List JsonRpcRequest) : HttpOut × List JsonRpcRequest :=
  let items := itemsOf parsed
  let hasInitialize := items.any (fun r => r.method = some (.strVal mInitialize))
  let step := dispatchList oracle version items
  match step.2 with
  | .error e =>
    if isAuthChallengeHttp e then (authChallengeOut e origin scope, step.1)
    else (.error500 (makeError RpcId.null (-32000) e.errMessage none), step.1)
  | .ok rs =>
    if acceptsSse then (.ok200Sse hasInitialize rs, step.1)
    else (.ok200Json hasInitialize (frameJson rs), step.1)

/-- Dispatching an all-ok prefix followed by a failing element dispatches
exactly the prefix and the failing element and yields its error. -/
theorem dispatchList_prefix_error
    (oracle : JsonRpcRequest → Except UpstreamHttpErrorT JsonRpcResponse) (version : Str)
    (pre post : List JsonRpcRequest) (bad : JsonRpcRequest) (e : UpstreamHttpErrorT)
    (hpre : ∀ r ∈ pre, ∃ o, handleRequestObjectM oracle version r = .ok o)
    (hbad : handleRequestObjectM oracle version bad = .error e) :
    dispatchList oracle version (pre ++ bad :: post) = (pre ++ [bad], .error e) := by
  induction pre with
  | nil => simp [dispatchList, hbad]
  | cons r pre' ih =>
    obtain ⟨o, ho⟩ := hpre r (by simp)
    have h2 := ih (fun r' hr' => hpre r' (by simp [hr']))
    simp [dispatchList, ho, h2, Except.map]

/-- The responses an all-ok dispatch collects: one optional response per
request object, absent ones dropped. -/
def okResponses (oracle : JsonRpcRequest → Except UpstreamHttpErrorT JsonRpcResponse)
    (version : Str) (items : List JsonRpcRequest) : List JsonRpcResponse :=
  items.filterMap (fun r =>
    match handleRequestObjectM oracle version r with
    | .ok o => o
    | .error _ => none)

/-- An all-ok dispatch dispatches every element and collects `okResponses`. -/
theorem dispatchList_all_ok
    (oracle : JsonRpcRequest → Except UpstreamHttpErrorT JsonRpcResponse) (version : Str)
    (items : List JsonRpcRequest)
    (hok : ∀ r ∈ items, ∃ o, handleRequestObjectM oracle version r = .ok o) :
    dispatchList oracle version items = (items, .ok (okResponses oracle version items)) := by
  induction items with
  | nil => simp [dispatchList, okResponses]
  | cons r rest ih =>
    obtain ⟨o, ho⟩ := hok r (by simp)
    have h2 := ih (fun r' hr' => hok r' (by simp [hr']))
    cases o <;> simp [dispatchList, okResponses, ho, h2, Except.map]

/-- The `notifications/initialized` branch yields no response. -/
theorem handleRequestObjectM_notif
    (oracle : JsonRpcRequest → Except UpstreamHttpErrorT JsonRpcResponse) (version : Str)
    (req : JsonRpcRequest) (h : req.method = some (.strVal mNotifInit)) :
    handleRequestObjectM oracle version req = .ok none := by
  simp [handleRequestObjectM, h]
  rw [if_neg (by decide), if_neg (by decide)]

/-- C1 (amended): when dispatching a POST /mcp body raises an upstream HTTP
error of status 401 or 403, the gateway's response is a challenge with that
same status, whose body is the upstream's body when that is non-empty and the
fixed object `{"error":"upstream_auth_required"}` when the upstream body is
empty, and whose `www-authenticate` header (present exactly when the upstream
supplied one) is the upstream value rewritten: the URL inside the first
`resource_metadata="..."` is replaced by the local gateway's
oauth-protected-resource URL (`?upstream=` appended when scoped), and when the
header contains no `resource_metadata=` parameter one is appended. The claim's
unconditional "the upstream's response body as its body" fails for an empty
upstream body, see the counterexample. -/
theorem C1_auth_challenge_hoisting
    (oracle : JsonRpcRequest → Except UpstreamHttpErrorT JsonRpcResponse)
    (version origin : Str) (scope : Option Str) (sse : Bool)
    (parsed : JsonRpcRequest ⊕ List JsonRpcRequest) (e : UpstreamHttpErrorT)
    (hdisp : (dispatchList oracle version (itemsOf parsed)).2 = .error e)
    (hstatus : e.status = 401 ∨ e.status = 403) :
    (postMcpM oracle version origin scope sse parsed).1 =
      .challenge e.status
        (e.wwwAuthenticate.map (fun w =>
          rewriteWwwAuthenticateResourceMetadata w (localResourceMetadataUrl origin scope)))
        (if e.bodyText.isEmpty then jsonUpstreamAuthRequired else e.bodyText)
    ∧ (∀ pre u post, '"' ∉ u →
        (∀ i, i < pre.length →
          ¬ occursAt patResourceMetadataQ (pre ++ patResourceMetadataQ ++ (u ++ '"' :: post)) i) →
        rewriteWwwAuthenticateResourceMetadata (pre ++ patResourceMetadataQ ++ (u ++ '"' :: post))
            (localResourceMetadataUrl origin scope) =
          pre ++ patResourceMetadataQ ++ (localResourceMetadataUrl origin scope ++ '"' :: post))
    ∧ (∀ w, containsSub patResourceMetadataEq w = false →
        rewriteWwwAuthenticateResourceMetadata w (localResourceMetadataUrl origin scope) =
          w ++ litAppendRM ++ localResourceMetadataUrl origin scope ++ ['"']) := by
  refine ⟨?_, fun pre u post hu hp => rewrite_replace_case _ pre u post hu hp,
    fun w hw => rewrite_append_case w _ hw⟩
  have hchal : isAuthChallengeHttp e = true := by
    rcases hstatus with h | h <;> simp [isAuthChallengeHttp, h]
  simp [postMcpM, hdisp, hchal, authChallengeOut]

def c1EmptyErr : UpstreamHttpErrorT :=
  { upstreamName := "vercel".data, status := 401, bodyText := [], wwwAuthenticate := none }

def c1FailOracle : JsonRpcRequest → Except UpstreamHttpErrorT JsonRpcResponse :=
  fun _ => .error c1EmptyErr

def c1Req : JsonRpcRequest :=
  { id := some (RpcId.num 1), method := some (.strVal "tools/list".data), params := none }

def c1Origin : Str := "http://127.0.0.1:37373".data

/-- C1 counterexample: a dispatch failing with a 401 whose upstream body is
empty produces the fixed fallback body `{"error":"upstream_auth_required"}`,
not the upstream's (empty) body as the claim states. -/
theorem C1_counterexample :
    (postMcpM c1FailOracle [] c1Origin none false (.inl c1Req)).1 =
      .challenge 401 none jsonUpstreamAuthRequired ∧
    jsonUpstreamAuthRequired ≠ c1EmptyErr.bodyText :=
  ⟨rfl, by decide⟩

def c1wErr : UpstreamHttpErrorT :=
  { upstreamName := "vercel".data, status := 401, bodyText := "denied".data,
    wwwAuthenticate := some
      "Bearer error=\"invalid_token\", resource_metadata=\"https://mcp.vercel.com/x\"".data }

def c1wOracle : JsonRpcRequest → Except UpstreamHttpErrorT JsonRpcResponse :=
  fun _ => .error c1wErr

/-- Witness for C1 at a concrete 401 with a body and a www-authenticate header. -/
theorem C1_auth_challenge_hoisting_witness :
    (dispatchList c1wOracle [] (itemsOf (Sum.inl c1Req))).2 = Except.error c1wErr ∧
    (c1wErr.status = 401 ∨ c1wErr.status = 403) ∧
    (postMcpM c1wOracle [] c1Origin none false (Sum.inl c1Req)).1 =
      .challenge c1wErr.status
        (c1wErr.wwwAuthenticate.map (fun w =>
          rewriteWwwAuthenticateResourceMetadata w (localResourceMetadataUrl c1Origin none)))
        (if c1wErr.bodyText.isEmpty then jsonUpstreamAuthRequired else c1wErr.bodyText) :=
  ⟨rfl, Or.inl rfl,
    (C1_auth_challenge_hoisting c1wOracle [] c1Origin none false (Sum.inl c1Req) c1wErr rfl
      (Or.inl rfl)).1⟩

/-- C9: when dispatching the elements of a batch in order, an element whose
dispatch raises an upstream HTTP error of status 401 or 403 makes the whole
HTTP response the challenge alone (status, rewritten `www-authenticate`,
upstream body with the empty-body fallback `{"error":"upstream_auth_required"}`)
— the responses already produced for earlier elements are discarded — and the
elements after it are not dispatched: the dispatched list is exactly the
prefix plus the failing element. -/
theorem C9_batch_auth_challenge
    (oracle : JsonRpcRequest → Except UpstreamHttpErrorT JsonRpcResponse)
    (version origin : Str) (scope : Option Str) (sse : Bool)
    (pre post : List JsonRpcRequest) (bad : JsonRpcRequest) (e : UpstreamHttpErrorT)
    (hpre : ∀ r ∈ pre, ∃ o, handleRequestObjectM oracle version r = .ok o)
    (hbad : handleRequestObjectM oracle version bad = .error e)
    (hstatus : e.status = 401 ∨ e.status = 403) :
    postMcpM oracle version origin scope sse (.inr (pre ++ bad :: post)) =
      (.challenge e.status
        (e.wwwAuthenticate.map (fun w =>
          rewriteWwwAuthenticateResourceMetadata w (localResourceMetadataUrl origin scope)))
        (if e.bodyText.isEmpty then jsonUpstreamAuthRequired else e.bodyText),
       pre ++ [bad]) := by
  have hd := dispatchList_prefix_error oracle version pre post bad e hpre hbad
  have hchal : isAuthChallengeHttp e = true := by
    rcases hstatus with h | h <;> simp [isAuthChallengeHttp, h]
  simp [postMcpM, itemsOf, hd, hchal, authChallengeOut]

def c9Ping : JsonRpcRequest :=
  { id := some (RpcId.num 1), method := some (.strVal mPing), params := none }

def c9Bad : JsonRpcRequest :=
  { id := some (RpcId.num 2), method := some (.strVal "tools/list".data), params := none }

def c9Err : UpstreamHttpErrorT :=
  { upstreamName := "vercel".data, status := 403, bodyText := "forbidden".data,
    wwwAuthenticate := some "Bearer realm=\"mcp\"".data }

def c9Oracle : JsonRpcRequest → Except UpstreamHttpErrorT JsonRpcResponse :=
  fun _ => .error c9Err

/-- Witness for C9 on the batch [ping, tools/list, ping] whose second element
raises a 403. -/
theorem C9_batch_auth_challenge_witness :
    handleRequestObjectM c9Oracle [] c9Bad = .error c9Err ∧
    (c9Err.status = 401 ∨ c9Err.status = 403) ∧
    postMcpM c9Oracle [] c1Origin none false (.inr ([c9Ping] ++ c9Bad :: [c9Ping])) =
      (.challenge c9Err.status
        (c9Err.wwwAuthenticate.map (fun w =>
          rewriteWwwAuthenticateResourceMetadata w (localResourceMetadataUrl c1Origin none)))
        (if c9Err.bodyText.isEmpty then jsonUpstreamAuthRequired else c9Err.bodyText),
       [c9Ping] ++ [c9Bad]) :=
  ⟨rfl, Or.inr rfl,
    C9_batch_auth_challenge c9Oracle [] c1Origin none false [c9Ping] [c9Ping] c9Bad c9Err
      (fun r hr => by rw [List.mem_singleton] at hr; subst hr; exact ⟨_, rfl⟩)
      rfl (Or.inr rfl)⟩

/-- C7 (amended): for an authorized POST /mcp whose Accept header does not
contain text/event-stream and whose dispatch raises no upstream HTTP error,
the 200 JSON response body is the single collected response object whenever
exactly one response was produced — in particular also for an array (batch)
body with one response-producing element — and a JSON array of the collected
responses otherwise (including a non-array body whose lone request is a
notification, which produces the empty array). Each element contributes at
most one response, and `notifications/initialized` contributes none. The
claim's "a single (non-array) body yields the object, an array body yields an
array" fails in both directions, see the counterexample. -/
theorem C7_json_framing
    (oracle : JsonRpcRequest → Except UpstreamHttpErrorT JsonRpcResponse)
    (version origin : Str) (scope : Option Str)
    (parsed : JsonRpcRequest ⊕ List JsonRpcRequest)
    (hok : ∀ r ∈ itemsOf parsed, ∃ o, handleRequestObjectM oracle version r = .ok o) :
    (postMcpM oracle version origin scope false parsed).1 =
      .ok200Json ((itemsOf parsed).any (fun r => r.method = some (.strVal mInitialize)))
        (frameJson (okResponses oracle version (itemsOf parsed)))
    ∧ (okResponses oracle version (itemsOf parsed)).length ≤ (itemsOf parsed).length
    ∧ (∀ req, req.method = some (.strVal mNotifInit) →
        handleRequestObjectM oracle version req = .ok none)
    ∧ (∀ r, frameJson [r] = .single r)
    ∧ (∀ rs, rs.length ≠ 1 → frameJson rs = .array rs) := by
  refine ⟨?_, List.length_filterMap_le _ _, handleRequestObjectM_notif oracle version,
    fun r => rfl, ?_⟩
  · have hd := dispatchList_all_ok oracle version (itemsOf parsed) hok
    simp [postMcpM, hd]
  · intro rs h
    match rs with
    | [] => rfl
    | [r] => exact absurd rfl h
    | r1 :: r2 :: rest => rfl

def c7Oracle : JsonRpcRequest → Except UpstreamHttpErrorT JsonRpcResponse :=
  fun req => .ok (makeResult (req.id.getD RpcId.null) JsonV.null)

/-- C7 counterexample: a batch (array body) consisting of one ping produces a
single-object 200 body, not the JSON array the claim requires for every array
body. -/
theorem C7_counterexample :
    (postMcpM c7Oracle [] c1Origin none false (.inr [c9Ping])).1 =
      .ok200Json false (.single (makeResult (RpcId.num 1) pingResult)) ∧
    HttpOut.bodyIsArray (postMcpM c7Oracle [] c1Origin none false (.inr [c9Ping])).1 = false :=
  ⟨rfl, rfl⟩

def c7Notif : JsonRpcRequest :=
  { id := none, method := some (.strVal mNotifInit), params := none }

/-- Both elements of the C7 witness batch dispatch without a thrown error. -/
theorem c7WitnessOk :
    ∀ r ∈ itemsOf (Sum.inr [c9Ping, c7Notif]), ∃ o, handleRequestObjectM c7Oracle [] r = .ok o := by
  intro r hr
  simp only [itemsOf, List.mem_cons, List.mem_singleton, List.not_mem_nil, or_false] at hr
  rcases hr with h | h <;> subst h <;> exact ⟨_, rfl⟩

/-- Witness for C7 on a two-element batch (ping, notifications/initialized):
one response is produced and the body is that single object. -/
theorem C7_json_framing_witness :
    (∀ r ∈ itemsOf (Sum.inr [c9Ping, c7Notif]), ∃ o, handleRequestObjectM c7Oracle [] r = .ok o) ∧
    (postMcpM c7Oracle [] c1Origin none false (Sum.inr [c9Ping, c7Notif])).1 =
      .ok200Json ((itemsOf (Sum.inr [c9Ping, c7Notif])).any
          (fun r => r.method = some (.strVal mInitialize)))
        (frameJson (okResponses c7Oracle [] (itemsOf (Sum.inr [c9Ping, c7Notif])))) :=
  ⟨c7WitnessOk, (C7_json_framing c7Oracle [] c1Origin none (Sum.inr [c9Ping, c7Notif]) c7WitnessOk).1⟩

/-! ## Upstream specifications and configuration -/

/-- Embeds `HttpServerSpec`: `url` plus the optional `headers` record (an
association list in insertion order). -/
structure HttpSpecT where
  url : Str
  headers : Option (List (Str × Str))
deriving DecidableEq

/-- Embeds `StdioServerSpec`: `command` plus the optional `args`, `env` and
`cwd` fields. -/
structure StdioSpecT where
  command : Str
  args : Option (List Str)
  env : Option (List (Str × Str))
  cwd : Option Str
deriving DecidableEq

/-- Embeds `UpstreamServerSpec`; the `transport` discriminant is the
constructor. -/
inductive UpstreamSpec where
  | http (spec : HttpSpecT) : UpstreamSpec
  | stdio (spec : StdioSpecT) : UpstreamSpec
deriving DecidableEq

/-- The `servers` record of a configuration snapshot: upstream names to
specifications, in insertion order (names are unique in a real config). -/
abbrev ServersT := List (Str × UpstreamSpec)

/-- Embeds `listUpstreams` (lines 87-94): all entries, or those whose name
equals the filter. -/
def listUpstreams (servers : ServersT) : Option Str → List (Str × UpstreamSpec)
  | none => servers
  | some f => servers.filter (fun u => u.1 = f)

/-- An error thrown during an upstream call: an `UpstreamHttpError`, or any
other `Error` identified by its message. -/
inductive GwErr where
  | httpErr (e : UpstreamHttpErrorT) : GwErr
  | plain (msg : Str) : GwErr
deriving DecidableEq

/-- Embeds `isAuthChallenge` (lines 634-636) on thrown errors: `instanceof
UpstreamHttpError` (the constructor test) with status 401 or 403. -/
def isAuthChallenge : GwErr → Bool
  | .httpErr e => isAuthChallengeHttp e
  | .plain _ => false

/-- The `message` property of a thrown error. -/
def GwErr.message : GwErr → Str
  | .httpErr e => e.errMessage
  | .plain m => m

/-! ## The catalog merger (tools/list, resources/list, prompts/list) -/

/-- A tool or prompt item of an upstream list result: the `name` field when
present as a string (`none` models an absent or non-string name), and all
remaining fields, which the spread `{...item, name}` passes through
unchanged. -/
structure NamedItem where
  name : Option Str
  rest : List (Str × JsonV)

/-- An item of a merged list result: the rewritten `name` and the untouched
remaining fields. -/
structure NamedOut where
  name : Str
  rest : List (Str × JsonV)

/-- A resource item of an upstream `resources/list` result. -/
structure ResourceItem where
  name : Option Str
  uri : Option Str
  rest : List (Str × JsonV)

/-- A merged resource item. -/
structure ResourceOut where
  name : Str
  uri : Str
  rest : List (Str × JsonV)

def defaultToolName : Str := "tool".data
def defaultPromptName : Str := "prompt".data
def mcpxScheme : Str := "mcpx://".data

/-- Embeds the loop body of `handleListTools` (lines 676-682). -/
def pushTool (flattenNames : Bool) (server : Str) (tool : NamedItem) : NamedOut :=
  let n := tool.name.getD defaultToolName
  { name := if flattenNames then n else server ++ '.' :: n, rest := tool.rest }

/-- Embeds the loop body of `handleListPrompts` (lines 768-774). -/
def pushPrompt (flattenNames : Bool) (server : Str) (p : NamedItem) : NamedOut :=
  let n := p.name.getD defaultPromptName
  { name := if flattenNames then n else server ++ '.' :: n, rest := p.rest }

/-- Embeds the loop body of `handleListResources` (lines 721-728). -/
def pushResource (flattenNames : Bool) (server : Str) (r : ResourceItem) : ResourceOut :=
  let originalUri := r.uri.getD []
  let originalName := r.name.getD originalUri
  { name := if flattenNames then originalName else server ++ '.' :: originalName,
    uri := if flattenNames then originalUri
      else mcpxScheme ++ server ++ '/' :: encodeURIComponent originalUri,
    rest := r.rest }

/-- The shared per-upstream loop of the three list handlers: query each
upstream in scope via the oracle `call` (which stands for `callUpstream` with
the respective list method; its `Option` result models a result object missing
the items field, read as `?? []`), push the rewritten items, and isolate
errors — except that with exactly one upstream in scope (`single`, computed as
`upstreams.length === 1` before the loop) an auth challenge is rethrown. -/
def catalogLoop (single : Bool) (push : Str → α → β)
    (call : Str × UpstreamSpec → Except GwErr (Option (List α))) :
    List (Str × UpstreamSpec) → Except GwErr (List β)
  | [] => .ok []
  | u :: rest =>
    match call u with
    | .ok items =>
      (catalogLoop single push call rest).map
        (fun acc => (items.getD []).map (push u.1) ++ acc)
    | .error e =>
      if single && isAuthChallenge e then .error e
      else catalogLoop single push call rest

/-- Embeds `handleListTools` (lines 653-693). -/
def handleListToolsM (servers : ServersT) (filter : Option Str)
    (call : Str × UpstreamSpec → Except GwErr (Option (List NamedItem))) :
    Except GwErr (List NamedOut) :=
  let upstreams := listUpstreams servers filter
  catalogLoop (upstreams.length == 1) (pushTool (upstreams.length == 1)) call upstreams

/-- Embeds `handleListResources` (lines 695-740). -/
def handleListResourcesM (servers : ServersT) (filter : Option Str)
    (call : Str × UpstreamSpec → Except GwErr (Option (List ResourceItem))) :
    Except GwErr (List ResourceOut) :=
  let upstreams := listUpstreams servers filter
  catalogLoop (upstreams.length == 1) (pushResource (upstreams.length == 1)) call upstreams

/-- Embeds `handleListPrompts` (lines 742-785). -/
def handleListPromptsM (servers : ServersT) (filter : Option Str)
    (call : Str × UpstreamSpec → Except GwErr (Option (List NamedItem))) :
    Except GwErr (List NamedOut) :=
  let upstreams := listUpstreams servers filter
  catalogLoop (upstreams.length == 1) (pushPrompt (upstreams.length == 1)) call upstreams

/-- An all-successful catalog loop merges every upstream's pushed items in
scope order. -/
theorem catalogLoop_all_ok (single : Bool) (push : Str → α → β)
    (items : Str × UpstreamSpec → Option (List α)) (l : List (Str × UpstreamSpec)) :
    catalogLoop single push (fun u => .ok (items u)) l =
      .ok (joinMap (fun u => ((items u).getD []).map (push u.1)) l) := by
  induction l with
  | nil => rfl
  | cons u rest ih => simp [catalogLoop, joinMap, ih, Except.map]

/-- The items a failure-isolating merge produces: each failing upstream
contributes nothing, each successful upstream its pushed items, in scope
order. -/
def isolatedItems (push : Str → α → β)
    (call : Str × UpstreamSpec → Except GwErr (Option (List α)))
    (l : List (Str × UpstreamSpec)) : List β :=
  joinMap (fun u =>
    match call u with
    | .ok items => (items.getD []).map (push u.1)
    | .error _ => []) l

/-- With more than one upstream (or generally whenever `single` is false) the
catalog loop never fails and produces the isolated merge. -/
theorem catalogLoop_isolates (push : Str → α → β)
    (call : Str × UpstreamSpec → Except GwErr (Option (List α)))
    (l : List (Str × UpstreamSpec)) :
    catalogLoop false push call l = .ok (isolatedItems push call l) := by
  induction l with
  | nil => rfl
  | cons u rest ih =>
    cases hc : call u <;> simp [catalogLoop, isolatedItems, joinMap, hc, ih, Except.map]

/-- C2: for tools/list, resources/list and prompts/list, when every upstream
call in scope succeeds, the merged result contains each upstream's items in
scope order, rewritten by the push functions; and the push functions (i) keep
an item's name and uri unchanged when the scope has exactly one upstream and
(ii) otherwise prefix the name with "<server>." and rewrite a resource uri to
"mcpx://<server>/<urlEncoded(uri)>"; the remaining fields of each item are
passed through unchanged in both modes. -/
theorem C2_catalog_naming
    (servers : ServersT) (filter : Option Str)
    (toolsOf promptsOf : Str × UpstreamSpec → Option (List NamedItem))
    (resourcesOf : Str × UpstreamSpec → Option (List ResourceItem)) :
    (handleListToolsM servers filter (fun u => .ok (toolsOf u)) =
      .ok (joinMap (fun u => ((toolsOf u).getD []).map
        (pushTool ((listUpstreams servers filter).length == 1) u.1))
        (listUpstreams servers filter)))
    ∧ (handleListResourcesM servers filter (fun u => .ok (resourcesOf u)) =
      .ok (joinMap (fun u => ((resourcesOf u).getD []).map
        (pushResource ((listUpstreams servers filter).length == 1) u.1))
        (listUpstreams servers filter)))
    ∧ (handleListPromptsM servers filter (fun u => .ok (promptsOf u)) =
      .ok (joinMap (fun u => ((promptsOf u).getD []).map
        (pushPrompt ((listUpstreams servers filter).length == 1) u.1))
        (listUpstreams servers filter)))
    ∧ (∀ s t n, t.name = some n → pushTool true s t = { name := n, rest := t.rest })
    ∧ (∀ s t n, t.name = some n → pushTool false s t = { name := s ++ '.' :: n, rest := t.rest })
    ∧ (∀ s p n, p.name = some n → pushPrompt true s p = { name := n, rest := p.rest })
    ∧ (∀ s p n, p.name = some n → pushPrompt false s p = { name := s ++ '.' :: n, rest := p.rest })
    ∧ (∀ s r n u0, r.name = some n → r.uri = some u0 →
        pushResource true s r = { name := n, uri := u0, rest := r.rest })
    ∧ (∀ s r n u0, r.name = some n → r.uri = some u0 →
        pushResource false s r =
          { name := s ++ '.' :: n,
            uri := mcpxScheme ++ s ++ '/' :: encodeURIComponent u0, rest := r.rest }) := by
  refine ⟨catalogLoop_all_ok _ _ toolsOf _, catalogLoop_all_ok _ _ resourcesOf _,
    catalogLoop_all_ok _ _ promptsOf _, ?_, ?_, ?_, ?_, ?_, ?_⟩
  · intro s t n h; simp [pushTool, h]
  · intro s t n h; simp [pushTool, h]
  · intro s p n h; simp [pushPrompt, h]
  · intro s p n h; simp [pushPrompt, h]
  · intro s r n u0 hn hu; simp [pushResource, hn, hu]
  · intro s r n u0 hn hu; simp [pushResource, hn, hu]

def c2SpecA : UpstreamSpec := .http { url := "https://a.example/mcp".data, headers := none }
def c2SpecB : UpstreamSpec := .http { url := "https://b.example/mcp".data, headers := none }
def c2Servers : ServersT := [("circleback".data, c2SpecA), ("vercel".data, c2SpecB)]
def c2Tool : NamedItem := { name := some "echo".data, rest := [] }
def c2Resource : ResourceItem :=
  { name := some "notes".data, uri := some "file:///tmp/a b.txt".data, rest := [] }

/-- Witness for C2 on a two-upstream configuration: the merged tools result and
the concrete name/uri rewriting facts. -/
theorem C2_catalog_naming_witness :
    (handleListToolsM c2Servers none (fun _ => .ok (some [c2Tool])) =
      .ok (joinMap (fun u => (((fun (_ : Str × UpstreamSpec) =>
          (some [c2Tool] : Option (List NamedItem))) u).getD []).map
        (pushTool ((listUpstreams c2Servers none).length == 1) u.1))
        (listUpstreams c2Servers none)))
    ∧ c2Tool.name = some "echo".data
    ∧ pushTool false "vercel".data c2Tool =
        { name := "vercel".data ++ '.' :: "echo".data, rest := c2Tool.rest }
    ∧ pushResource true "vercel".data c2Resource =
        { name := "notes".data, uri := "file:///tmp/a b.txt".data, rest := c2Resource.rest } :=
  ⟨(C2_catalog_naming c2Servers none (fun _ => some [c2Tool]) (fun _ => some [c2Tool])
      (fun _ => some [c2Resource])).1,
   rfl,
   (C2_catalog_naming c2Servers none (fun _ => some [c2Tool]) (fun _ => some [c2Tool])
      (fun _ => some [c2Resource])).2.2.2.2.1 "vercel".data c2Tool "echo".data rfl,
   (C2_catalog_naming c2Servers none (fun _ => some [c2Tool]) (fun _ => some [c2Tool])
      (fun _ => some [c2Resource])).2.2.2.2.2.2.2.1 "vercel".data c2Resource "notes".data
      "file:///tmp/a b.txt".data rfl rfl⟩

/-- C3: for the three list methods, when the scope has two or more upstreams
the handlers never fail: every upstream whose call fails contributes no items
and every successful upstream contributes its items, in scope order; and when
the scope is exactly one upstream whose call fails with an auth challenge
(an UpstreamHttpError of status 401 or 403), that error propagates out of the
handler instead of being swallowed. -/
theorem C3_failure_isolation
    (servers : ServersT) (filter : Option Str)
    (callT callP : Str × UpstreamSpec → Except GwErr (Option (List NamedItem)))
    (callR : Str × UpstreamSpec → Except GwErr (Option (List ResourceItem)))
    (u : Str × UpstreamSpec) (e : GwErr) :
    (2 ≤ (listUpstreams servers filter).length →
      (handleListToolsM servers filter callT =
        .ok (isolatedItems (pushTool false) callT (listUpstreams servers filter)))
      ∧ (handleListResourcesM servers filter callR =
        .ok (isolatedItems (pushResource false) callR (listUpstreams servers filter)))
      ∧ (handleListPromptsM servers filter callP =
        .ok (isolatedItems (pushPrompt false) callP (listUpstreams servers filter))))
    ∧ (listUpstreams servers filter = [u] → isAuthChallenge e = true →
        (callT u = .error e → handleListToolsM servers filter callT = .error e)
        ∧ (callR u = .error e → handleListResourcesM servers filter callR = .error e)
        ∧ (callP u = .error e → handleListPromptsM servers filter callP = .error e)) := by
  constructor
  · intro h2
    have hne : ((listUpstreams servers filter).length == 1) = false := by
      rw [Bool.eq_false_iff]
      intro hb
      rw [beq_iff_eq] at hb
      omega
    refine ⟨?_, ?_, ?_⟩ <;>
      simp only [handleListToolsM, handleListResourcesM, handleListPromptsM, hne] <;>
      exact catalogLoop_isolates _ _ _
  · intro hu hchal
    refine ⟨?_, ?_, ?_⟩ <;> intro hcall <;>
      simp [handleListToolsM, handleListResourcesM, handleListPromptsM, hu, catalogLoop,
        hcall, hchal]

def c3FailA : GwErr := .plain "connect ECONNREFUSED".data
def c3Challenge : GwErr :=
  .httpErr { upstreamName := "vercel".data, status := 401, bodyText := "denied".data,
             wwwAuthenticate := none }
def c3CallT : Str × UpstreamSpec → Except GwErr (Option (List NamedItem)) :=
  fun v => if v.1 = "circleback".data then .error c3FailA else .ok (some [c2Tool])
def c3Single : ServersT := [("vercel".data, c2SpecB)]

/-- Witness for C3: in a two-upstream scope a failing first upstream is
omitted and no error is returned; in a one-upstream scope a 401 challenge
propagates. -/
theorem C3_failure_isolation_witness :
    (2 ≤ (listUpstreams c2Servers none).length ∧
      handleListToolsM c2Servers none c3CallT =
        .ok (isolatedItems (pushTool false) c3CallT (listUpstreams c2Servers none)))
    ∧ (listUpstreams c3Single none = [("vercel".data, c2SpecB)] ∧
        isAuthChallenge c3Challenge = true ∧
        handleListToolsM c3Single none (fun _ => .error c3Challenge) = .error c3Challenge) :=
  ⟨⟨by decide,
    ((C3_failure_isolation c2Servers none c3CallT c3CallT (fun _ => .ok none)
        ("vercel".data, c2SpecB) c3Challenge).1 (by decide)).1⟩,
   ⟨rfl, rfl,
    (((C3_failure_isolation c3Single none (fun _ => .error c3Challenge)
          (fun _ => .error c3Challenge) (fun _ => .error c3Challenge)
          ("vercel".data, c2SpecB) c3Challenge).2 rfl rfl).1 rfl)⟩⟩

/-! ## Secret resolution (cli/src/core/secrets.ts) -/

def secretScheme : Str := "secret://".data
def msgSecretNotFound : Str := "Secret not found: ".data
def envSecretPrefix : Str := "MCPX_SECRET_".data

/-- Embeds `parseSecretRef` (lines 11-17 of secrets.ts): the trailing name of a
`secret://` reference, `none` for non-references and for an empty name. -/
def parseSecretRef (ref : Str) : Option Str :=
  if startsWith secretScheme ref then
    let name := ref.drop secretScheme.length
    if 0 < name.length then some name else none
  else none

/-- The ambient inputs of secret lookup: the process environment, whether the
platform is darwin, and the keychain (`security find-generic-password`, its
trimmed output) as a partial map. -/
structure SecretsCtx where
  env : List (Str × Str)
  darwin : Bool
  store : Str → Option Str

/-- Environment variable lookup. -/
def envGet (env : List (Str × Str)) (k : Str) : Option Str :=
  (env.find? (fun p => p.1 = k)).map (fun p => p.2)

/-- Embeds `SecretsManager.getSecret` (lines 81-98): the env override
`MCPX_SECRET_<name>` when set and non-empty; otherwise the keychain, which is
only consulted on darwin. -/
def getSecret (ctx : SecretsCtx) (name : Str) : Option Str :=
  match envGet ctx.env (envSecretPrefix ++ name) with
  | some v => if 0 < v.length then some v else if ctx.darwin then ctx.store name else none
  | none => if ctx.darwin then ctx.store name else none

/-- Embeds `SecretsManager.resolveMaybeSecret` (lines 100-112): non-references
pass through; a reference whose lookup yields nothing (or an empty string, the
`if (!secret)` test) throws `Error("Secret not found: <name>")`. -/
def resolveMaybeSecret (ctx : SecretsCtx) (value : Str) : Except Str Str :=
  match parseSecretRef value with
  | none => .ok value
  | some name =>
    match getSecret ctx name with
    | some secret =>
      if secret.isEmpty then .error (msgSecretNotFound ++ name) else .ok secret
    | none => .error (msgSecretNotFound ++ name)

/-! ## Spec fingerprinting: JSON.stringify of a spec object -/

/-- Lowercase hex digit for a value below 16. -/
def hexLowerDigit (n : Nat) : Char :=
  if n < 10 then Char.ofNat (48 + n) else Char.ofNat (97 + n - 10)

/-- JSON.stringify's escaping of one character of a string literal. -/
def escChar (c : Char) : Str :=
  if c = '"' then [ '\\', '"' ]
  else if c = '\\' then [ '\\', '\\' ]
  else if c = '\x08' then [ '\\', 'b' ]
  else if c = '\t' then [ '\\', 't' ]
  else if c = '\n' then [ '\\', 'n' ]
  else if c = '\x0c' then [ '\\', 'f' ]
  else if c = '\x0d' then [ '\\', 'r' ]
  else if c.toNat < 32 then
    [ '\\', 'u', '0', '0', hexLowerDigit (c.toNat / 16), hexLowerDigit (c.toNat % 16) ]
  else [c]

/-- JSON string-content escaping. -/
def esc : Str → Str
  | [] => []
  | c :: s => escChar c ++ esc s

/-- A JSON string literal: quote, escaped content, quote. -/
def jstr (s : Str) : Str := '"' :: (esc s ++ [ '"' ])

/-- The elements of a JSON array of strings, after the opening bracket,
comma-separated and closed by the bracket. -/
def serArrElems : List Str → Str
  | [] => [ ']' ]
  | [x] => jstr x ++ [ ']' ]
  | x :: y :: tl => jstr x ++ ',' :: serArrElems (y :: tl)

/-- A JSON array of strings. -/
def serArr (xs : List Str) : Str := '[' :: serArrElems xs

/-- The members of a JSON object of string values, after the opening brace,
comma-separated and closed by the brace. -/
def serObjElems : List (Str × Str) → Str
  | [] => [ '\x7d' ]
  | [(k, v)] => jstr k ++ ':' :: jstr v ++ [ '\x7d' ]
  | (k, v) :: p :: tl => jstr k ++ ':' :: jstr v ++ ',' :: serObjElems (p :: tl)

/-- A JSON object of string values, keys in insertion order. -/
def serObj (kvs : List (Str × Str)) : Str := '\x7b' :: serObjElems kvs

def litHttpPre : Str := "\x7b\"transport\":\"http\",\"url\":".data
def litHeadersKey : Str := ",\"headers\":".data
def litStdioPre : Str := "\x7b\"transport\":\"stdio\",\"command\":".data
def litArgsKey : Str := ",\"args\":".data
def litEnvKey : Str := ",\"env\":".data
def litCwdKey : Str := ",\"cwd\":".data

/-- Optional-field serialization: absent fields are omitted by
`JSON.stringify`. -/
def optPart (key : Str) (ser : α → Str) : Option α → Str
  | none => []
  | some a => key ++ ser a

/-- Embeds `specFingerprint` (lines 281-283): `JSON.stringify(spec)` on a
configuration snapshot's spec object. zod's object parsing emits the keys in
schema-declaration order (`transport`, then `url` or `command`, `args`,
`env`/`headers`, `cwd`); record values keep their own key insertion order; and
`JSON.stringify` omits absent optional fields and escapes string contents. -/
def specFingerprint : UpstreamSpec → Str
  | .http s => litHttpPre ++ jstr s.url ++ optPart litHeadersKey serObj s.headers ++ [ '\x7d' ]
  | .stdio s => litStdioPre ++ jstr s.command ++ optPart litArgsKey serArr s.args
      ++ optPart litEnvKey serObj s.env ++ optPart litCwdKey jstr s.cwd ++ [ '\x7d' ]

/-! ## The stdio connection pool and stdio calls -/

/-- JavaScript object/Map assignment: replace the value in place when the key
exists, else append. -/
def assocSet (k v : Str) : List (Str × Str) → List (Str × Str)
  | [] => [(k, v)]
  | (k', v') :: rest => if k' = k then (k, v) :: rest else (k', v') :: assocSet k v rest

/-- The stdio connection pool at the level the claims need: upstream name to
the fingerprint of the spec the cached connection was created from (the
client and transport handles are process state outside the model). -/
abbrev StdioPool := List (Str × Str)

/-- `Map.get`-style lookup of a pool entry's fingerprint. -/
def poolGet (pool : StdioPool) (name : Str) : Option Str :=
  (pool.find? (fun p => p.1 = name)).map (fun p => p.2)

/-- `Map.delete` of a pool entry. -/
def poolRemove (pool : StdioPool) (name : Str) : StdioPool :=
  pool.filter (fun p => p.1 ≠ name)

/-- The parameters `StdioClientTransport` is spawned with
(`buildStdioServerParameters`). -/
structure StdioParams where
  command : Str
  args : List Str
  cwd : Option Str
  env : Option (List (Str × Str))

/-- Result of awaiting one typed MCP-client call on a stdio connection, as the
SDK client surfaces it: a result; a rejection carrying the upstream's
application-level JSON-RPC error response (the SDK's `McpError`); or a
rejection with a transport-level error (i/o on the pipe, process exit,
protocol framing, timeout). -/
inductive StdioCallOutcome where
  | success (result : JsonV) : StdioCallOutcome
  | rpcError (message : Str) : StdioCallOutcome
  | transportError (message : Str) : StdioCallOutcome

/-- The process-level oracles of the stdio path: whether spawn-and-connect
fails for an upstream, and the outcome of one client call (name, method). -/
structure StdioWorld where
  connect : Str → Option Str
  callOutcome : Str → Str → StdioCallOutcome

/-- Resolve and assign a record of possibly-secret values onto a base object in
order (the header/env loops); the first failing resolution throws. -/
def resolveAssignAll (ctx : SecretsCtx) (base : List (Str × Str)) :
    List (Str × Str) → Except Str (List (Str × Str))
  | [] => .ok base
  | (k, v) :: rest =>
    match resolveMaybeSecret ctx v with
    | .error e => .error e
    | .ok rv => resolveAssignAll ctx (assocSet k rv base) rest

/-- Embeds `resolveStdioEnv` (lines 285-296): `undefined` when the spec has no
env entries; otherwise the default child environment overlaid with each entry
resolved through `resolveMaybeSecret`. -/
def resolveStdioEnv (ctx : SecretsCtx) (defaultEnv : List (Str × Str)) (spec : StdioSpecT) :
    Except Str (Option (List (Str × Str))) :=
  match spec.env with
  | none => .ok none
  | some [] => .ok none
  | some entries => (resolveAssignAll ctx defaultEnv entries).map some

/-- Embeds `buildStdioServerParameters` (lines 298-305). -/
def buildStdioServerParameters (ctx : SecretsCtx) (defaultEnv : List (Str × Str))
    (spec : StdioSpecT) : Except Str StdioParams :=
  (resolveStdioEnv ctx defaultEnv spec).map (fun env =>
    { command := spec.command, args := spec.args.getD [], cwd := spec.cwd, env := env })

/-- The creation path of `getStdioConnection` (lines 366-390): the entry is
inserted before the connection promise settles and removed again when it
rejects — parameter resolution (inside the promise) or connect failure leaves
the name absent; success caches the fingerprint. Returns the pool, the spawn
attempts, and the connection outcome. -/
def createStdioConnection (world : StdioWorld) (ctx : SecretsCtx)
    (defaultEnv : List (Str × Str)) (name : Str) (spec : StdioSpecT) (fp : Str)
    (pool : StdioPool) : StdioPool × List StdioParams × Except GwErr Unit :=
  match buildStdioServerParameters ctx defaultEnv spec with
  | .error e => (poolRemove pool name, [], .error (.plain e))
  | .ok params =>
    match world.connect name with
    | some msg => (poolRemove pool name, [params], .error (.plain msg))
    | none => (assocSet name fp pool, [params], .ok ())

/-- Embeds `getStdioConnection` (lines 350-391): reuse a pooled connection
whose fingerprint matches the current spec; evict a mismatched one before
creating; otherwise create. -/
def getStdioConnectionM (world : StdioWorld) (ctx : SecretsCtx)
    (defaultEnv : List (Str × Str)) (name : Str) (spec : StdioSpecT)
    (pool : StdioPool) : StdioPool × List StdioParams × Except GwErr Unit :=
  let fp := specFingerprint (.stdio spec)
  match poolGet pool name with
  | some cachedFp =>
    if cachedFp = fp then (pool, [], .ok ())
    else createStdioConnection world ctx defaultEnv name spec fp (poolRemove pool name)
  | none => createStdioConnection world ctx defaultEnv name spec fp pool

def mToolsList : Str := "tools/list".data
def mResourcesList : Str := "resources/list".data
def mPromptsList : Str := "prompts/list".data
def mToolsCall : Str := "tools/call".data
def mResourcesRead : Str := "resources/read".data
def mPromptsGet : Str := "prompts/get".data
def msgUnsupportedStdio : Str := "Unsupported stdio passthrough method: ".data

/-- The six methods `callStdioUpstream` passes through to typed client calls. -/
def stdioMethodSupported (m : Str) : Bool :=
  m = mToolsList || m = mResourcesList || m = mPromptsList ||
  m = mToolsCall || m = mResourcesRead || m = mPromptsGet

/-- Embeds `callStdioUpstream` (lines 393-434): get or create the pooled
connection and invoke the typed client method; on ANY thrown error — a
connection failure, an unsupported method, a transport-level rejection or an
upstream JSON-RPC error rejection — evict the pool entry
(`invalidateStdioConnection`) and rethrow. -/
def callStdioUpstreamM (world : StdioWorld) (ctx : SecretsCtx)
    (defaultEnv : List (Str × Str)) (name : Str) (spec : StdioSpecT) (method : Str)
    (pool : StdioPool) : StdioPool × List StdioParams × Except GwErr JsonV :=
  let conn := getStdioConnectionM world ctx defaultEnv name spec pool
  match conn.2.2 with
  | .error e => (poolRemove conn.1 name, conn.2.1, .error e)
  | .ok _ =>
    if stdioMethodSupported method then
      match world.callOutcome name method with
      | .success r => (conn.1, conn.2.1, .ok r)
      | .rpcError msg => (poolRemove conn.1 name, conn.2.1, .error (.plain msg))
      | .transportError msg => (poolRemove conn.1 name, conn.2.1, .error (.plain msg))
    else (poolRemove conn.1 name, conn.2.1, .error (.plain (msgUnsupportedStdio ++ method)))

/-! ## HTTP upstream calls -/

/-- The params object of an upstream-bound call: the string-valued `name` and
`uri` keys when present (`none` also stands for a non-string value there), and
the remaining fields, which the spread `{...params}` forwards unchanged. -/
structure CallParams where
  name : Option Str
  uri : Option Str
  rest : List (Str × JsonV)

/-- An outbound JSON-RPC POST recorded in the trace. -/
structure OutboundHttp where
  url : Str
  headers : List (Str × Str)
  method : Str
  params : CallParams
  id : RpcId

def hContentType : Str × Str := ("content-type".data, "application/json".data)
def hAccept : Str × Str := ("accept".data, "application/json, text/event-stream".data)
def hAuthorization : Str := "Authorization".data
def baseHttpHeaders : List (Str × Str) := [hContentType, hAccept]

/-- The net oracle: `fetch` of the JSON-RPC POST together with the non-2xx
status check (which throws `UpstreamHttpError`), the SSE/JSON payload parsing
and the payload-error check of `callHttpUpstream` (lines 457-517); yields the
payload's `result` or the error those lines throw. -/
abbrev HttpNet := OutboundHttp → Except GwErr JsonV

/-- Embeds `callHttpUpstream` (lines 436-518) up to the net oracle: build the
headers (the two base headers, the configured headers resolved through
`resolveMaybeSecret` in order, then the passthrough Authorization override),
record the request in the trace and consult the net oracle. When a header
value's secret resolution throws, nothing is sent. -/
def callHttpUpstreamM (net : HttpNet) (ctx : SecretsCtx) (spec : HttpSpecT)
    (method : Str) (params : CallParams) (id : RpcId) (passthroughAuth : Option Str) :
    List OutboundHttp × Except GwErr JsonV :=
  match resolveAssignAll ctx baseHttpHeaders (spec.headers.getD []) with
  | .error e => ([], .error (.plain e))
  | .ok hs =>
    let hs2 := match passthroughAuth with
      | some a => assocSet hAuthorization a hs
      | none => hs
    let req : OutboundHttp :=
      { url := spec.url, headers := hs2, method := method, params := params, id := id }
    ([req], net req)

/-- The combined state threaded through an upstream call: the stdio pool and
the traces of outbound HTTP requests and spawned child processes. -/
structure GatewayWorldState where
  pool : StdioPool
  httpTrace : List OutboundHttp
  spawnTrace : List StdioParams

/-- Embeds `callUpstream` (lines 234-255): stdio upstreams go through the
pool, http upstreams through `callHttpUpstream` (the passthrough Authorization
is used only on the http path, as in the source). -/
def callUpstreamM (net : HttpNet) (world : StdioWorld) (ctx : SecretsCtx)
    (defaultEnv : List (Str × Str)) (name : Str) (spec : UpstreamSpec) (method : Str)
    (params : CallParams) (id : RpcId) (passthroughAuth : Option Str)
    (st : GatewayWorldState) : GatewayWorldState × Except GwErr JsonV :=
  match spec with
  | .stdio s =>
    let r := callStdioUpstreamM world ctx defaultEnv name s method st.pool
    ({ st with pool := r.1, spawnTrace := st.spawnTrace ++ r.2.1 }, r.2.2)
  | .http s =>
    let r := callHttpUpstreamM net ctx s method params id passthroughAuth
    ({ st with httpTrace := st.httpTrace ++ r.1 }, r.2)

/-! ## Namespaced identifiers and routeNamespacedCall -/

/-- Hex digit value, both cases (as `decodeURIComponent` accepts them). -/
def hexVal (c : Char) : Option Nat :=
  if 48 ≤ c.toNat ∧ c.toNat ≤ 57 then some (c.toNat - 48)
  else if 65 ≤ c.toNat ∧ c.toNat ≤ 70 then some (c.toNat - 55)
  else if 97 ≤ c.toNat ∧ c.toNat ≤ 102 then some (c.toNat - 87)
  else none

/-- Tokenize a percent-encoded string into literal characters and `%XX`
bytes; a `%` not followed by two hex digits is a URIError. -/
def pctTokens : Str → Option (List (Char ⊕ Nat))
  | [] => some []
  | '%' :: h1 :: h2 :: rest =>
    match hexVal h1, hexVal h2 with
    | some a, some b => (pctTokens rest).map (fun ts => .inr (a * 16 + b) :: ts)
    | _, _ => none
  | '%' :: _ => none
  | c :: rest => (pctTokens rest).map (fun ts => .inl c :: ts)

/-- A UTF-8 continuation byte. -/
def isCont (b : Nat) : Bool := decide (0x80 ≤ b ∧ b ≤ 0xBF)

/-- Decode the token stream: literal characters pass through; percent-decoded
byte runs are decoded as strict UTF-8 (continuation ranges checked, surrogates
and overlong encodings rejected); failure models the URIError. -/
def utf8DecodeMixed : List (Char ⊕ Nat) → Option Str
  | [] => some []
  | .inl c :: rest => (utf8DecodeMixed rest).map (fun s => c :: s)
  | .inr b :: rest =>
    if b < 0x80 then (utf8DecodeMixed rest).map (fun s => Char.ofNat b :: s)
    else if 0xC2 ≤ b ∧ b ≤ 0xDF then
      match rest with
      | .inr b2 :: rest2 =>
        if isCont b2 = true then
          (utf8DecodeMixed rest2).map (fun s =>
            Char.ofNat ((b - 0xC0) * 64 + (b2 - 0x80)) :: s)
        else none
      | _ => none
    else if 0xE0 ≤ b ∧ b ≤ 0xEF then
      match rest with
      | .inr b2 :: .inr b3 :: rest2 =>
        if (if b = 0xE0 then 0xA0 else 0x80) ≤ b2 ∧
            b2 ≤ (if b = 0xED then 0x9F else 0xBF) ∧ isCont b3 = true then
          (utf8DecodeMixed rest2).map (fun s =>
            Char.ofNat (((b - 0xE0) * 64 + (b2 - 0x80)) * 64 + (b3 - 0x80)) :: s)
        else none
      | _ => none
    else if 0xF0 ≤ b ∧ b ≤ 0xF4 then
      match rest with
      | .inr b2 :: .inr b3 :: .inr b4 :: rest2 =>
        if (if b = 0xF0 then 0x90 else 0x80) ≤ b2 ∧
            b2 ≤ (if b = 0xF4 then 0x8F else 0xBF) ∧ isCont b3 = true ∧ isCont b4 = true then
          (utf8DecodeMixed rest2).map (fun s =>
            Char.ofNat ((((b - 0xF0) * 64 + (b2 - 0x80)) * 64 + (b3 - 0x80)) * 64 + (b4 - 0x80)) :: s)
        else none
      | _ => none
    else none

/-- Embeds JavaScript `decodeURIComponent` (`Option` models the URIError). -/
def decodeURIComponent (s : Str) : Option Str :=
  (pctTokens s).bind utf8DecodeMixed

/-- Index of the first occurrence of a character (JavaScript `indexOf`, with
`none` for -1). -/
def idxOf (c : Char) : Str → Option Nat
  | [] => none
  | d :: rest => if d = c then some 0 else (idxOf c rest).map (fun i => i + 1)

/-- Embeds `splitNamespacedName` (lines 191-201): split at the first `'.'`,
requiring a non-empty part on both sides (`split <= 0 || split >=
value.length - 1` returns null). -/
def splitNamespacedName (value : Str) : Option (Str × Str) :=
  match idxOf '.' value with
  | none => none
  | some i =>
    if i = 0 ∨ value.length - 1 ≤ i then none
    else some (value.take i, value.drop (i + 1))

/-- Embeds `parseNamespacedUri` (lines 203-232): for an `mcpx://` uri, the
server up to the first `'/'` and the URL-decoded suffix (null on a decode
failure); otherwise fall back to the first-dot split. -/
def parseNamespacedUri (uri : Str) : Option (Str × Str) :=
  if startsWith mcpxScheme uri then
    let rest := uri.drop mcpxScheme.length
    match idxOf '/' rest with
    | none => none
    | some i =>
      if i = 0 ∨ rest.length - 1 ≤ i then none
      else
        match decodeURIComponent (rest.drop (i + 1)) with
        | some decoded => some (rest.take i, decoded)
        | none => none
  else
    splitNamespacedName uri

inductive RouteMethod where
  | toolsCall : RouteMethod
  | resourcesRead : RouteMethod
  | promptsGet : RouteMethod

/-- The wire string of a routed method. -/
def RouteMethod.str : RouteMethod → Str
  | .toolsCall => mToolsCall
  | .resourcesRead => mResourcesRead
  | .promptsGet => mPromptsGet

def msgMissingParams : Str := "Missing params object.".data
def msgToolNamespace : Str := "Tool name must be namespaced as <server>.<tool>.".data
def msgPromptNamespace : Str := "Prompt name must be namespaced as <server>.<prompt>.".data
def msgResourceNamespace : Str :=
  "Resource URI must be namespaced (mcpx://<server>/<encoded-uri>).".data
def litTool : Str := "Tool".data
def litPrompt : Str := "Prompt".data
def litResource : Str := "Resource".data
def kUri : Str := "uri".data

/-- The scope-mismatch error message (`<kind> belongs to upstream <server>, but
request is scoped to <filter>.`). -/
def mismatchMsg (kind server fltr : Str) : Str :=
  kind ++ " belongs to upstream ".data ++ server ++ ", but request is scoped to ".data
    ++ fltr ++ ".".data

/-- `Map.get` over the scope entries. -/
def mapGet (l : List (Str × UpstreamSpec)) (n : Str) : Option (Str × UpstreamSpec) :=
  l.find? (fun u => u.1 = n)

/-- The shared target-selection and call step of `routeNamespacedCall` (after
the scope-mismatch check): the namespaced server when it is configured, else
the single-upstream flat fallback with the identifier unchanged; no target is
a -32602; a thrown auth challenge is rethrown, any other error becomes a
-32000 response carrying the error's message. -/
def routeCallTarget (net : HttpNet) (world : StdioWorld) (ctx : SecretsCtx)
    (defaultEnv : List (Str × Str)) (upstreamEntries : List (Str × UpstreamSpec))
    (flattened : Option (Str × UpstreamSpec)) (split : Option (Str × Str))
    (origIdent : Str) (setIdent : CallParams → Str → CallParams) (noTargetMsg : Str)
    (noTargetData : Option JsonV) (ps : CallParams) (method : Str) (id : RpcId)
    (passthroughAuth : Option Str) (st : GatewayWorldState) :
    GatewayWorldState × Except UpstreamHttpErrorT JsonRpcResponse :=
  let target : Option ((Str × UpstreamSpec) × Str) :=
    match split with
    | some sp =>
      match mapGet upstreamEntries sp.1 with
      | some u => some (u, sp.2)
      | none => flattened.map (fun u => (u, origIdent))
    | none => flattened.map (fun u => (u, origIdent))
  match target with
  | none => (st, .ok (makeError id (-32602) noTargetMsg noTargetData))
  | some (u, localIdent) =>
    let r := callUpstreamM net world ctx defaultEnv u.1 u.2 method (setIdent ps localIdent)
      id passthroughAuth st
    match r.2 with
    | .ok result => (r.1, .ok (makeResult id result))
    | .error (.httpErr he) =>
      if isAuthChallengeHttp he then (r.1, .error he)
      else (r.1, .ok (makeError id (-32000) (GwErr.message (.httpErr he)) none))
    | .error (.plain msg) => (r.1, .ok (makeError id (-32000) msg none))

/-- Embeds `routeNamespacedCall` (lines 787-907) for the three routed methods:
the params check, identifier parsing, the scope-mismatch -32602, target
selection, forwarding with the upstream-local identifier written back into the
params, and the catch that rethrows auth challenges and wraps other errors as
-32000. -/
def routeNamespacedCallM (net : HttpNet) (world : StdioWorld) (ctx : SecretsCtx)
    (defaultEnv : List (Str × Str)) (servers : ServersT) (method : RouteMethod)
    (params : Option CallParams) (id : RpcId) (filter : Option Str)
    (passthroughAuth : Option Str) (st : GatewayWorldState) :
    GatewayWorldState × Except UpstreamHttpErrorT JsonRpcResponse :=
  match params with
  | none => (st, .ok (makeError id (-32602) msgMissingParams none))
  | some ps =>
    let upstreamEntries := listUpstreams servers filter
    let flattened : Option (Str × UpstreamSpec) :=
      match upstreamEntries with
      | [u] => some u
      | _ => none
    match method with
    | .toolsCall =>
      let toolName := ps.name.getD []
      let split := splitNamespacedName toolName
      match split, filter with
      | some sp, some f =>
        if sp.1 ≠ f then (st, .ok (makeError id (-32602) (mismatchMsg litTool sp.1 f) none))
        else routeCallTarget net world ctx defaultEnv upstreamEntries flattened split toolName
          (fun p n => { p with name := some n }) msgToolNamespace none ps mToolsCall id
          passthroughAuth st
      | _, _ => routeCallTarget net world ctx defaultEnv upstreamEntries flattened split toolName
          (fun p n => { p with name := some n }) msgToolNamespace none ps mToolsCall id
          passthroughAuth st
    | .promptsGet =>
      let promptName := ps.name.getD []
      let split := splitNamespacedName promptName
      match split, filter with
      | some sp, some f =>
        if sp.1 ≠ f then (st, .ok (makeError id (-32602) (mismatchMsg litPrompt sp.1 f) none))
        else routeCallTarget net world ctx defaultEnv upstreamEntries flattened split promptName
          (fun p n => { p with name := some n }) msgPromptNamespace none ps mPromptsGet id
          passthroughAuth st
      | _, _ => routeCallTarget net world ctx defaultEnv upstreamEntries flattened split promptName
          (fun p n => { p with name := some n }) msgPromptNamespace none ps mPromptsGet id
          passthroughAuth st
    | .resourcesRead =>
      let uri := ps.uri.getD []
      let parsed := parseNamespacedUri uri
      match parsed, filter with
      | some sp, some f =>
        if sp.1 ≠ f then (st, .ok (makeError id (-32602) (mismatchMsg litResource sp.1 f) none))
        else routeCallTarget net world ctx defaultEnv upstreamEntries flattened parsed uri
          (fun p n => { p with uri := some n }) msgResourceNamespace
          (some (.obj [(kUri, .str uri)])) ps mResourcesRead id passthroughAuth st
      | _, _ => routeCallTarget net world ctx defaultEnv upstreamEntries flattened parsed uri
          (fun p n => { p with uri := some n }) msgResourceNamespace
          (some (.obj [(kUri, .str uri)])) ps mResourcesRead id passthroughAuth st

/-- After `Map.delete`, the name is absent. -/
theorem poolGet_remove (pool : StdioPool) (name : Str) :
    poolGet (poolRemove pool name) name = none := by
  induction pool with
  | nil => rfl
  | cons p rest ih =>
    obtain ⟨k, v⟩ := p
    by_cases h : k = name <;> simp [poolRemove, poolGet, List.filter_cons, h] at ih ⊢

/-- `Map.delete` is idempotent. -/
theorem poolRemove_idem (pool : StdioPool) (name : Str) :
    poolRemove (poolRemove pool name) name = poolRemove pool name := by
  simp [poolRemove, List.filter_filter]

/-- After `Map.set`, the key maps to the assigned value. -/
theorem poolGet_assocSet (pool : StdioPool) (k v : Str) :
    poolGet (assocSet k v pool) k = some v := by
  induction pool with
  | nil => simp [assocSet, poolGet]
  | cons p rest ih =>
    obtain ⟨k', v'⟩ := p
    by_cases h : k' = k
    · simp [assocSet, poolGet, h]
    · simp only [assocSet, if_neg h]
      simpa [poolGet, h] using ih

/-- A successful connection creation caches the fingerprint under the name. -/
theorem createStdio_ok_poolGet (world : StdioWorld) (ctx : SecretsCtx)
    (defaultEnv : List (Str × Str)) (name : Str) (spec : StdioSpecT) (fp : Str)
    (pool : StdioPool)
    (h : (createStdioConnection world ctx defaultEnv name spec fp pool).2.2 = .ok ()) :
    poolGet (createStdioConnection world ctx defaultEnv name spec fp pool).1 name = some fp := by
  unfold createStdioConnection at h ⊢
  cases hb : buildStdioServerParameters ctx defaultEnv spec with
  | error e => simp [hb] at h
  | ok params =>
    cases hc : world.connect name with
    | some msg => simp [hb, hc] at h
    | none => simp [hb, hc, poolGet_assocSet]

/-- A connection available from `getStdioConnection` is cached under the
current spec's fingerprint. -/
theorem getStdioConnectionM_ok_poolGet (world : StdioWorld) (ctx : SecretsCtx)
    (defaultEnv : List (Str × Str)) (name : Str) (spec : StdioSpecT) (pool : StdioPool)
    (h : (getStdioConnectionM world ctx defaultEnv name spec pool).2.2 = .ok ()) :
    poolGet (getStdioConnectionM world ctx defaultEnv name spec pool).1 name =
      some (specFingerprint (.stdio spec)) := by
  unfold getStdioConnectionM at h ⊢
  cases hg : poolGet pool name with
  | some cachedFp =>
    by_cases hfp : cachedFp = specFingerprint (.stdio spec)
    · subst hfp
      simp only [hg, if_pos rfl] at h ⊢
      exact hg
    · simp only [hg, if_neg hfp] at h ⊢
      exact createStdio_ok_poolGet _ _ _ _ _ _ _ h
  | none =>
    simp only [hg] at h ⊢
    exact createStdio_ok_poolGet _ _ _ _ _ _ _ h

/-- C4 (amended): for every call to a stdio upstream, a transport-level error
(an i/o, process-exit, framing or timeout rejection) evicts the pool entry for
that upstream name — and an application-level JSON-RPC error from the
upstream, which the SDK client also surfaces as a rejection, is evicted by the
same catch-all (the claim's "the entry is NOT evicted" fails, see the
counterexample); only a successful call leaves the pooled entry in place,
cached under the spec's fingerprint. -/
theorem C4_stdio_eviction (world : StdioWorld) (ctx : SecretsCtx)
    (defaultEnv : List (Str × Str)) (name : Str) (spec : StdioSpecT) (method : Str)
    (pool : StdioPool) :
    (∀ msg, world.callOutcome name method = .transportError msg →
      poolGet (callStdioUpstreamM world ctx defaultEnv name spec method pool).1 name = none)
    ∧ (∀ msg, world.callOutcome name method = .rpcError msg →
      poolGet (callStdioUpstreamM world ctx defaultEnv name spec method pool).1 name = none)
    ∧ (∀ r, world.callOutcome name method = .success r → stdioMethodSupported method = true →
      (getStdioConnectionM world ctx defaultEnv name spec pool).2.2 = .ok () →
      (callStdioUpstreamM world ctx defaultEnv name spec method pool).1 =
        (getStdioConnectionM world ctx defaultEnv name spec pool).1
      ∧ poolGet (callStdioUpstreamM world ctx defaultEnv name spec method pool).1 name =
          some (specFingerprint (.stdio spec))) := by
  refine ⟨?_, ?_, ?_⟩
  · intro msg hout
    unfold callStdioUpstreamM
    cases hc : (getStdioConnectionM world ctx defaultEnv name spec pool).2.2 with
    | error e => simp [hc, poolGet_remove]
    | ok u =>
      by_cases hs : stdioMethodSupported method <;> simp [hc, hs, hout, poolGet_remove]
  · intro msg hout
    unfold callStdioUpstreamM
    cases hc : (getStdioConnectionM world ctx defaultEnv name spec pool).2.2 with
    | error e => simp [hc, poolGet_remove]
    | ok u =>
      by_cases hs : stdioMethodSupported method <;> simp [hc, hs, hout, poolGet_remove]
  · intro r hout hs hconn
    have hpg := getStdioConnectionM_ok_poolGet world ctx defaultEnv name spec pool hconn
    unfold callStdioUpstreamM
    simp [hconn, hs, hout, hpg]

def c4Spec : StdioSpecT :=
  { command := "node".data, args := some ["server.js".data], env := none, cwd := none }
def c4Name : Str := "next_devtools".data
def c4Pool : StdioPool := [(c4Name, specFingerprint (.stdio c4Spec))]
def c4Ctx : SecretsCtx := { env := [], darwin := false, store := fun _ => none }
def c4World : StdioWorld :=
  { connect := fun _ => none,
    callOutcome := fun _ _ => .rpcError "MCP error -32602: Invalid params".data }

/-- C4 counterexample: with a pooled connection for the upstream, a call whose
upstream returns an application-level JSON-RPC error rejection leaves the pool
without the entry — it is evicted, where the claim says the entry for that
upstream is unchanged after the call. -/
theorem C4_counterexample :
    (callStdioUpstreamM c4World c4Ctx [] c4Name c4Spec mToolsCall c4Pool).1 = [] ∧
    c4Pool ≠ [] :=
  ⟨by decide, by decide⟩

def c4TWorld : StdioWorld :=
  { connect := fun _ => none, callOutcome := fun _ _ => .transportError "pipe closed".data }

/-- Witness for C4 at a transport-level failure of a pooled connection. -/
theorem C4_stdio_eviction_witness :
    c4TWorld.callOutcome c4Name mToolsCall = .transportError "pipe closed".data ∧
    poolGet (callStdioUpstreamM c4TWorld c4Ctx [] c4Name c4Spec mToolsCall c4Pool).1 c4Name =
      none :=
  ⟨rfl, (C4_stdio_eviction c4TWorld c4Ctx [] c4Name c4Spec mToolsCall c4Pool).1
    "pipe closed".data rfl⟩

/-- C6 (amended): secret resolution returns a value unchanged when it does not
start with `secret://` OR when it is exactly `secret://` (empty trailing name,
which `parseSecretRef` treats as not-a-reference — the original claim fails
there, see the counterexample); a reference with a non-empty name resolves to
the environment override `MCPX_SECRET_<name>` when set and non-empty, else the
platform secret store (consulted only on darwin); and when that lookup yields
nothing, a tools/call whose outbound http headers or stdio env reference the
secret returns a JSON-RPC error -32000 whose message (`Secret not found:
<name>`) contains "Secret not found", with no HTTP request sent and no child
process spawned. -/
theorem C6_secret_resolution :
    (∀ ctx (v : Str), startsWith secretScheme v = false → resolveMaybeSecret ctx v = .ok v)
    ∧ (∀ ctx (name s : Str), envGet ctx.env (envSecretPrefix ++ name) = some s →
        0 < s.length → getSecret ctx name = some s)
    ∧ (∀ ctx (name : Str), envGet ctx.env (envSecretPrefix ++ name) = none →
        getSecret ctx name = (if ctx.darwin then ctx.store name else none))
    ∧ (∀ ctx (name : Str), name ≠ [] → getSecret ctx name = none →
        resolveMaybeSecret ctx (secretScheme ++ name) = .error (msgSecretNotFound ++ name))
    ∧ (∀ (n : Str), containsSub "Secret not found".data (msgSecretNotFound ++ n) = true)
    ∧ (∀ net world ctx defaultEnv (uname : Str) (specH : HttpSpecT) ps id auth st em tn,
        resolveAssignAll ctx baseHttpHeaders (specH.headers.getD []) = .error em →
        ps.name = some tn → splitNamespacedName tn = none →
        routeNamespacedCallM net world ctx defaultEnv [(uname, .http specH)] .toolsCall
            (some ps) id none auth st =
          (st, .ok (makeError id (-32000) em none)))
    ∧ (∀ net world ctx defaultEnv (uname : Str) (specS : StdioSpecT) ps id auth st em tn,
        buildStdioServerParameters ctx defaultEnv specS = .error em →
        poolGet st.pool uname = none →
        ps.name = some tn → splitNamespacedName tn = none →
        routeNamespacedCallM net world ctx defaultEnv [(uname, .stdio specS)] .toolsCall
            (some ps) id none auth st =
          ({ st with pool := poolRemove st.pool uname },
           .ok (makeError id (-32000) em none))) := by
  refine ⟨?_, ?_, ?_, ?_, ?_, ?_, ?_⟩
  · intro ctx v h
    simp [resolveMaybeSecret, parseSecretRef, h]
  · intro ctx name s henv hs
    simp [getSecret, henv, hs]
  · intro ctx name henv
    simp [getSecret, henv]
  · intro ctx name hne hget
    have hpref : startsWith secretScheme (secretScheme ++ name) = true := by
      simp [startsWith, List.isPrefixOf_iff_prefix]
    have hl : 0 < name.length := List.length_pos.mpr hne
    simp [resolveMaybeSecret, parseSecretRef, hpref, List.drop_left, hl, hget]
  · intro n
    have h1 : msgSecretNotFound = "Secret not found".data ++ ": ".data := by decide
    have h2 : msgSecretNotFound ++ n =
        [] ++ ("Secret not found".data ++ (": ".data ++ n)) := by
      rw [h1, List.nil_append, List.append_assoc]
    rw [h2]
    exact containsSub_of_split _ _ _
  · intro net world ctx defaultEnv uname specH ps id auth st em tn hres hname hsplit
    simp [routeNamespacedCallM, listUpstreams, hname, hsplit, routeCallTarget, mapGet,
      callUpstreamM, callHttpUpstreamM, hres]
  · intro net world ctx defaultEnv uname specS ps id auth st em tn hres hpool hname hsplit
    simp [routeNamespacedCallM, listUpstreams, hname, hsplit, routeCallTarget, mapGet,
      callUpstreamM, callStdioUpstreamM, getStdioConnectionM, hpool,
      createStdioConnection, hres, poolRemove_idem]

def c6Ctx : SecretsCtx := { env := [], darwin := false, store := fun _ => none }
def c6Net : HttpNet := fun _ => .ok JsonV.null
def c6World : StdioWorld :=
  { connect := fun _ => none, callOutcome := fun _ _ => .success JsonV.null }
def c6St : GatewayWorldState := { pool := [], httpTrace := [], spawnTrace := [] }
def c6Ps : CallParams := { name := some "echo".data, uri := none, rest := [] }

def c6EmptyRefSpec : HttpSpecT :=
  { url := "https://cb.example/mcp".data,
    headers := some [("Authorization".data, "secret://".data)] }

/-- C6 counterexample: the header value `secret://` starts with `secret://`
and no lookup can yield a value for its (empty) name, yet `resolveMaybeSecret`
returns it unchanged and the tools/call is forwarded — the upstream IS
contacted (one outbound request), where the claim demands a -32000
"Secret not found" error with the upstream never contacted. -/
theorem C6_counterexample :
    startsWith secretScheme "secret://".data = true ∧
    getSecret c6Ctx [] = none ∧
    resolveMaybeSecret c6Ctx "secret://".data = .ok "secret://".data ∧
    (routeNamespacedCallM c6Net c6World c6Ctx [] [("circleback".data, .http c6EmptyRefSpec)]
        .toolsCall (some c6Ps) (RpcId.num 1) none none c6St).1.httpTrace.length = 1 :=
  ⟨by decide, by decide, rfl, rfl⟩

def c6MissSpec : HttpSpecT :=
  { url := "https://cb.example/mcp".data,
    headers := some [("Authorization".data, "secret://missing_token".data)] }

def c6SpecStdio : StdioSpecT :=
  { command := "node".data, args := none,
    env := some [("API_KEY".data, "secret://missing_token".data)], cwd := none }

def c6Err : Str := msgSecretNotFound ++ "missing_token".data

/-- Witness for C6: a tools/call against an http upstream whose Authorization
header references the unset secret `missing_token` yields the -32000
"Secret not found: missing_token" response with the state untouched (no
outbound request), and the same for a stdio upstream referencing it in env. -/
theorem C6_secret_resolution_witness :
    (resolveAssignAll c6Ctx baseHttpHeaders (c6MissSpec.headers.getD []) = .error c6Err ∧
      routeNamespacedCallM c6Net c6World c6Ctx [] [("circleback".data, .http c6MissSpec)]
          .toolsCall (some c6Ps) (RpcId.num 1) none none c6St =
        (c6St, .ok (makeError (RpcId.num 1) (-32000) c6Err none))) ∧
    (buildStdioServerParameters c6Ctx [] c6SpecStdio = .error c6Err ∧
      routeNamespacedCallM c6Net c6World c6Ctx [] [("next_devtools".data, .stdio c6SpecStdio)]
          .toolsCall (some c6Ps) (RpcId.num 1) none none c6St =
        ({ c6St with pool := poolRemove c6St.pool "next_devtools".data },
         .ok (makeError (RpcId.num 1) (-32000) c6Err none))) ∧
    containsSub "Secret not found".data c6Err = true :=
  ⟨⟨rfl,
    (C6_secret_resolution).2.2.2.2.2.1 c6Net c6World c6Ctx [] "circleback".data c6MissSpec
      c6Ps (RpcId.num 1) none c6St c6Err "echo".data rfl rfl (by decide)⟩,
   ⟨rfl,
    (C6_secret_resolution).2.2.2.2.2.2 c6Net c6World c6Ctx [] "next_devtools".data c6SpecStdio
      c6Ps (RpcId.num 1) none c6St c6Err "echo".data rfl rfl rfl (by decide)⟩,
   (C6_secret_resolution).2.2.2.2.1 "missing_token".data⟩

def c8Spec : HttpSpecT := { url := "https://mcp.vercel.com/mcp".data, headers := none }
def c8Servers : ServersT := [("vercel".data, .http c8Spec)]
def c8Ps : CallParams := { name := none, uri := some "file:///tmp/notes.txt".data, rest := [] }

/-- C8 (code bug): a resources/read scoped via `?upstream=vercel` whose
params.uri is the ordinary, non-namespaced uri `file:///tmp/notes.txt` is NOT
accepted as-is and forwarded: `parseNamespacedUri` falls back to splitting at
the first `'.'`, reads `file:///tmp/notes` as a server name, and the
scope-mismatch check rejects the request with -32602 without contacting any
upstream — where the specification's flat mode accepts any non-mcpx
identifier as-is and targets the scoped upstream. -/
theorem C8_flat_uri_scoped :
    parseNamespacedUri "file:///tmp/notes.txt".data =
      some ("file:///tmp/notes".data, "txt".data) ∧
    routeNamespacedCallM c6Net c6World c6Ctx [] c8Servers .resourcesRead (some c8Ps)
        (RpcId.num 1) (some "vercel".data) none c6St =
      (c6St, .ok (makeError (RpcId.num 1) (-32602)
        (mismatchMsg litResource "file:///tmp/notes".data "vercel".data) none)) :=
  ⟨by decide, rfl⟩

/-! ## Injectivity of the spec fingerprint

The fingerprint is shown injective on spec values by exhibiting a decoder:
`unesc` undoes the JSON string escaping, and the serialized forms of the
optional fields are distinguished by their leading characters. -/

/-- Prepend a character to the parsed content of an optional parse result. -/
def consFst (c : Char) : Option (Str × Str) → Option (Str × Str) :=
  Option.map (fun p => (c :: p.1, p.2))

/-- Inverse of the escaped string body: consume characters up to the closing
quote, undoing `escChar`. -/
def unesc : Str → Option (Str × Str)
  | [] => none
  | c :: rest =>
    if c = '"' then some ([], rest)
    else if c = '\\' then
      match rest with
      | [] => none
      | e :: rest2 =>
        if e = '"' then consFst '"' (unesc rest2)
        else if e = '\\' then consFst '\\' (unesc rest2)
        else if e = 'b' then consFst '\x08' (unesc rest2)
        else if e = 't' then consFst '\t' (unesc rest2)
        else if e = 'n' then consFst '\n' (unesc rest2)
        else if e = 'f' then consFst '\x0c' (unesc rest2)
        else if e = 'r' then consFst '\x0d' (unesc rest2)
        else if e = 'u' then
          match rest2 with
          | h1 :: h2 :: h3 :: h4 :: rest3 =>
            match hexVal h1, hexVal h2, hexVal h3, hexVal h4 with
            | some a, some b2, some c2, some d =>
              consFst (Char.ofNat (((a * 16 + b2) * 16 + c2) * 16 + d)) (unesc rest3)
            | _, _, _, _ => none
          | _ => none
        else none
    else consFst c (unesc rest)

theorem unesc_quote (rest : Str) : unesc ('"' :: rest) = some ([], rest) := by
  unfold unesc; simp

theorem unesc_bs_quote (rest : Str) : unesc ('\\' :: '"' :: rest) = consFst '"' (unesc rest) := by
  conv_lhs => unfold unesc
  simp

theorem unesc_bs_bs (rest : Str) : unesc ('\\' :: '\\' :: rest) = consFst '\\' (unesc rest) := by
  conv_lhs => unfold unesc
  simp

theorem unesc_bs_b (rest : Str) : unesc ('\\' :: 'b' :: rest) = consFst '\x08' (unesc rest) := by
  conv_lhs => unfold unesc
  simp

theorem unesc_bs_t (rest : Str) : unesc ('\\' :: 't' :: rest) = consFst '\t' (unesc rest) := by
  conv_lhs => unfold unesc
  simp

theorem unesc_bs_n (rest : Str) : unesc ('\\' :: 'n' :: rest) = consFst '\n' (unesc rest) := by
  conv_lhs => unfold unesc
  simp

theorem unesc_bs_f (rest : Str) : unesc ('\\' :: 'f' :: rest) = consFst '\x0c' (unesc rest) := by
  conv_lhs => unfold unesc
  simp

theorem unesc_bs_r (rest : Str) : unesc ('\\' :: 'r' :: rest) = consFst '\x0d' (unesc rest) := by
  conv_lhs => unfold unesc
  simp

theorem unesc_bs_u (h1 h2 h3 h4 : Char) (rest : Str) (a b2 c2 d : Nat)
    (e1 : hexVal h1 = some a) (e2 : hexVal h2 = some b2)
    (e3 : hexVal h3 = some c2) (e4 : hexVal h4 = some d) :
    unesc ('\\' :: 'u' :: h1 :: h2 :: h3 :: h4 :: rest) =
      consFst (Char.ofNat (((a * 16 + b2) * 16 + c2) * 16 + d)) (unesc rest) := by
  conv_lhs => unfold unesc
  simp [e1, e2, e3, e4]

theorem unesc_plain (c : Char) (rest : Str) (hq : ¬ (c = '"')) (hb : ¬ (c = '\\')) :
    unesc (c :: rest) = consFst c (unesc rest) := by
  conv_lhs => unfold unesc
  simp [hq, hb]

theorem hexVal_hexLowerDigit : ∀ n, n < 16 → hexVal (hexLowerDigit n) = some n := by decide

/-- Round-trip: unescaping an escaped string body consumes it exactly up to
the closing quote. -/
theorem unesc_esc (s rest : Str) : unesc (esc s ++ '"' :: rest) = some (s, rest) := by
  induction s with
  | nil => simpa [esc] using unesc_quote rest
  | cons c s' ih =>
    show unesc ((escChar c ++ esc s') ++ '"' :: rest) = _
    rw [List.append_assoc]
    by_cases hq : c = '"'
    · subst hq
      have he : escChar '"' = [ '\\', '"' ] := by decide
      simp only [he, List.cons_append, List.nil_append]
      rw [unesc_bs_quote, ih]
      simp [consFst]
    · by_cases hb : c = '\\'
      · subst hb
        have he : escChar '\\' = [ '\\', '\\' ] := by decide
        simp only [he, List.cons_append, List.nil_append]
        rw [unesc_bs_bs, ih]
        simp [consFst]
      · by_cases h3 : c = '\x08'
        · subst h3
          have he : escChar '\x08' = [ '\\', 'b' ] := by decide
          simp only [he, List.cons_append, List.nil_append]
          rw [unesc_bs_b, ih]
          simp [consFst]
        · by_cases h4 : c = '\t'
          · subst h4
            have he : escChar '\t' = [ '\\', 't' ] := by decide
            simp only [he, List.cons_append, List.nil_append]
            rw [unesc_bs_t, ih]
            simp [consFst]
          · by_cases h5 : c = '\n'
            · subst h5
              have he : escChar '\n' = [ '\\', 'n' ] := by decide
              simp only [he, List.cons_append, List.nil_append]
              rw [unesc_bs_n, ih]
              simp [consFst]
            · by_cases h6 : c = '\x0c'
              · subst h6
                have he : escChar '\x0c' = [ '\\', 'f' ] := by decide
                simp only [he, List.cons_append, List.nil_append]
                rw [unesc_bs_f, ih]
                simp [consFst]
              · by_cases h7 : c = '\x0d'
                · subst h7
                  have he : escChar '\x0d' = [ '\\', 'r' ] := by decide
                  simp only [he, List.cons_append, List.nil_append]
                  rw [unesc_bs_r, ih]
                  simp [consFst]
                · by_cases h8 : c.toNat < 32
                  · have he : escChar c = [ '\\', 'u', '0', '0',
                        hexLowerDigit (c.toNat / 16), hexLowerDigit (c.toNat % 16) ] := by
                      simp [escChar, hq, hb, h3, h4, h5, h6, h7, h8]
                    have hd1 : c.toNat / 16 < 16 := by omega
                    have hd2 : c.toNat % 16 < 16 := Nat.mod_lt _ (by norm_num)
                    have h0 : hexVal '0' = some 0 := by decide
                    simp only [he, List.cons_append, List.nil_append]
                    rw [unesc_bs_u '0' '0' _ _ _ 0 0 _ _ h0 h0
                      (hexVal_hexLowerDigit _ hd1) (hexVal_hexLowerDigit _ hd2), ih]
                    have harith : ((0 * 16 + 0) * 16 + c.toNat / 16) * 16 + c.toNat % 16
                        = c.toNat := by omega
                    rw [harith, Char.ofNat_toNat]
                    simp [consFst]
                  · have he : escChar c = [c] := by
                      simp [escChar, hq, hb, h3, h4, h5, h6, h7, h8]
                    simp only [he, List.cons_append, List.nil_append]
                    rw [unesc_plain c _ hq hb, ih]
                    simp [consFst]

/-- Two JSON string literals followed by tails are equal only componentwise. -/
theorem jstr_cancel (a b t1 t2 : Str) (h : jstr a ++ t1 = jstr b ++ t2) :
    a = b ∧ t1 = t2 := by
  simp only [jstr, List.cons_append, List.cons.injEq, List.append_assoc, true_and,
    List.singleton_append, List.nil_append] at h
  have ha := unesc_esc a t1
  rw [h, unesc_esc b t2] at ha
  simp only [Option.some.injEq, Prod.mk.injEq] at ha
  exact ⟨ha.1.symm, ha.2.symm⟩

/-- Serialized string-array element lists cancel. -/
theorem serArrElems_cancel (a : List Str) : ∀ (b : List Str) (t1 t2 : Str),
    serArrElems a ++ t1 = serArrElems b ++ t2 → a = b ∧ t1 = t2 := by
  induction a with
  | nil =>
    intro b t1 t2 h
    match b with
    | [] => exact ⟨rfl, by simpa [serArrElems] using h⟩
    | [y] => exfalso; simp [serArrElems, jstr] at h
    | y :: z :: zs => exfalso; simp [serArrElems, jstr] at h
  | cons x xs ih =>
    intro b t1 t2 h
    cases b with
    | nil =>
      exfalso
      cases xs <;> simp [serArrElems, jstr] at h
    | cons y ys =>
      cases xs with
      | nil =>
        cases ys with
        | nil =>
          have h' : jstr x ++ (']' :: t1) = jstr y ++ (']' :: t2) := by
            simpa [serArrElems, List.append_assoc] using h
          obtain ⟨hxy, ht⟩ := jstr_cancel _ _ _ _ h'
          simp only [List.cons.injEq, true_and] at ht
          exact ⟨by rw [hxy], ht⟩
        | cons z zs =>
          exfalso
          have h' : jstr x ++ (']' :: t1) = jstr y ++ (',' :: (serArrElems (z :: zs) ++ t2)) := by
            simpa [serArrElems, List.append_assoc] using h
          obtain ⟨-, ht⟩ := jstr_cancel _ _ _ _ h'
          simp at ht
      | cons w ws =>
        cases ys with
        | nil =>
          exfalso
          have h' : jstr x ++ (',' :: (serArrElems (w :: ws) ++ t1)) = jstr y ++ (']' :: t2) := by
            simpa [serArrElems, List.append_assoc] using h
          obtain ⟨-, ht⟩ := jstr_cancel _ _ _ _ h'
          simp at ht
        | cons z zs =>
          have h' : jstr x ++ (',' :: (serArrElems (w :: ws) ++ t1)) =
              jstr y ++ (',' :: (serArrElems (z :: zs) ++ t2)) := by
            simpa [serArrElems, List.append_assoc] using h
          obtain ⟨hxy, ht⟩ := jstr_cancel _ _ _ _ h'
          simp only [List.cons.injEq, true_and] at ht
          obtain ⟨hlist, htt⟩ := ih (z :: zs) t1 t2 ht
          exact ⟨by rw [hxy, hlist], htt⟩

/-- Serialized object member lists cancel. -/
theorem serObjElems_cancel (a : List (Str × Str)) : ∀ (b : List (Str × Str)) (t1 t2 : Str),
    serObjElems a ++ t1 = serObjElems b ++ t2 → a = b ∧ t1 = t2 := by
  induction a with
  | nil =>
    intro b t1 t2 h
    match b with
    | [] => exact ⟨rfl, by simpa [serObjElems] using h⟩
    | [(k, v)] => exfalso; simp [serObjElems, jstr] at h
    | (k, v) :: p :: ps => exfalso; simp [serObjElems, jstr] at h
  | cons x xs ih =>
    obtain ⟨k, v⟩ := x
    intro b t1 t2 h
    cases b with
    | nil =>
      exfalso
      cases xs <;> simp [serObjElems, jstr] at h
    | cons y ys =>
      obtain ⟨k', v'⟩ := y
      cases xs with
      | nil =>
        cases ys with
        | nil =>
          have h' : jstr k ++ (':' :: (jstr v ++ ('\x7d' :: t1))) =
              jstr k' ++ (':' :: (jstr v' ++ ('\x7d' :: t2))) := by
            simpa [serObjElems, List.append_assoc] using h
          obtain ⟨hk, ht⟩ := jstr_cancel _ _ _ _ h'
          simp only [List.cons.injEq, true_and] at ht
          obtain ⟨hv, ht2⟩ := jstr_cancel _ _ _ _ ht
          simp only [List.cons.injEq, true_and] at ht2
          exact ⟨by rw [hk, hv], ht2⟩
        | cons z zs =>
          exfalso
          have h' : jstr k ++ (':' :: (jstr v ++ ('\x7d' :: t1))) =
              jstr k' ++ (':' :: (jstr v' ++ (',' :: (serObjElems (z :: zs) ++ t2)))) := by
            simpa [serObjElems, List.append_assoc] using h
          obtain ⟨-, ht⟩ := jstr_cancel _ _ _ _ h'
          simp only [List.cons.injEq, true_and] at ht
          obtain ⟨-, ht2⟩ := jstr_cancel _ _ _ _ ht
          simp at ht2
      | cons w ws =>
        cases ys with
        | nil =>
          exfalso
          have h' : jstr k ++ (':' :: (jstr v ++ (',' :: (serObjElems (w :: ws) ++ t1)))) =
              jstr k' ++ (':' :: (jstr v' ++ ('\x7d' :: t2))) := by
            simpa [serObjElems, List.append_assoc] using h
          obtain ⟨-, ht⟩ := jstr_cancel _ _ _ _ h'
          simp only [List.cons.injEq, true_and] at ht
          obtain ⟨-, ht2⟩ := jstr_cancel _ _ _ _ ht
          simp at ht2
        | cons z zs =>
          have h' : jstr k ++ (':' :: (jstr v ++ (',' :: (serObjElems (w :: ws) ++ t1)))) =
              jstr k' ++ (':' :: (jstr v' ++ (',' :: (serObjElems (z :: zs) ++ t2)))) := by
            simpa [serObjElems, List.append_assoc] using h
          obtain ⟨hk, ht⟩ := jstr_cancel _ _ _ _ h'
          simp only [List.cons.injEq, true_and] at ht
          obtain ⟨hv, ht2⟩ := jstr_cancel _ _ _ _ ht
          simp only [List.cons.injEq, true_and] at ht2
          obtain ⟨hlist, htt⟩ := ih (z :: zs) t1 t2 ht2
          exact ⟨by rw [hk, hv, hlist], htt⟩

/-- Serialized string arrays cancel. -/
theorem serArr_cancel (x y : List Str) (t1 t2 : Str)
    (h : serArr x ++ t1 = serArr y ++ t2) : x = y ∧ t1 = t2 := by
  simp only [serArr, List.cons_append, List.cons.injEq, true_and] at h
  exact serArrElems_cancel x y t1 t2 h

/-- Serialized string objects cancel. -/
theorem serObj_cancel (x y : List (Str × Str)) (t1 t2 : Str)
    (h : serObj x ++ t1 = serObj y ++ t2) : x = y ∧ t1 = t2 := by
  simp only [serObj, List.cons_append, List.cons.injEq, true_and] at h
  exact serObjElems_cancel x y t1 t2 h

/-- Two appends with unequal characters at a common index are unequal. -/
theorem append_ne_of_nth (a b : Str) (i : Nat) (ha : i < a.length) (hb : i < b.length)
    (hne : a[i]? ≠ b[i]?) (X Y : Str) : ¬ (a ++ X = b ++ Y) := by
  intro h
  have h2 : (a ++ X)[i]? = (b ++ Y)[i]? := by rw [h]
  rw [List.getElem?_append_left ha, List.getElem?_append_left hb] at h2
  exact hne h2

/-- The serialized optional `cwd` field (followed by the closing brace)
cancels. -/
theorem cwdTail_cancel (c1 c2 : Option Str)
    (h : optPart litCwdKey jstr c1 ++ [ '\x7d' ] = optPart litCwdKey jstr c2 ++ [ '\x7d' ]) :
    c1 = c2 := by
  have hk : litCwdKey = ',' :: "\"cwd\":".data := by decide
  cases c1 with
  | none =>
    cases c2 with
    | none => rfl
    | some c =>
      exfalso
      simp only [optPart, List.nil_append, hk, List.cons_append, List.append_assoc] at h
      simp at h
  | some c =>
    cases c2 with
    | none =>
      exfalso
      simp only [optPart, List.nil_append, hk, List.cons_append, List.append_assoc] at h
      simp at h
    | some c' =>
      simp only [optPart, List.append_assoc] at h
      have h2 := List.append_cancel_left h
      exact congrArg some (jstr_cancel _ _ _ _ h2).1

/-- The serialized optional `env` and `cwd` fields cancel. -/
theorem envTail_cancel (e1 e2 : Option (List (Str × Str))) (c1 c2 : Option Str)
    (h : optPart litEnvKey serObj e1 ++ (optPart litCwdKey jstr c1 ++ [ '\x7d' ]) =
         optPart litEnvKey serObj e2 ++ (optPart litCwdKey jstr c2 ++ [ '\x7d' ])) :
    e1 = e2 ∧ c1 = c2 := by
  have hke : litEnvKey = ',' :: '"' :: 'e' :: "nv\":".data := by decide
  have hkc : litCwdKey = ',' :: '"' :: 'c' :: "wd\":".data := by decide
  cases e1 with
  | none =>
    cases e2 with
    | none =>
      simp only [optPart, List.nil_append] at h
      exact ⟨rfl, cwdTail_cancel _ _ h⟩
    | some e =>
      exfalso
      cases c1 with
      | none =>
        simp only [optPart, List.nil_append, hke, List.cons_append] at h
        simp at h
      | some c =>
        simp only [optPart, List.nil_append, hke, hkc, List.cons_append,
          List.append_assoc] at h
        simp at h
  | some e =>
    cases e2 with
    | none =>
      exfalso
      cases c2 with
      | none =>
        simp only [optPart, List.nil_append, hke, List.cons_append] at h
        simp at h
      | some c =>
        simp only [optPart, List.nil_append, hke, hkc, List.cons_append,
          List.append_assoc] at h
        simp at h
    | some e' =>
      simp only [optPart, List.append_assoc] at h
      have h2 := List.append_cancel_left h
      obtain ⟨he, hr⟩ := serObj_cancel _ _ _ _ h2
      exact ⟨congrArg some he, cwdTail_cancel _ _ hr⟩

/-- The serialized optional `args`, `env` and `cwd` fields cancel. -/
theorem stTail_cancel (a1 a2 : Option (List Str)) (e1 e2 : Option (List (Str × Str)))
    (c1 c2 : Option Str)
    (h : optPart litArgsKey serArr a1 ++
          (optPart litEnvKey serObj e1 ++ (optPart litCwdKey jstr c1 ++ [ '\x7d' ])) =
         optPart litArgsKey serArr a2 ++
          (optPart litEnvKey serObj e2 ++ (optPart litCwdKey jstr c2 ++ [ '\x7d' ]))) :
    a1 = a2 ∧ e1 = e2 ∧ c1 = c2 := by
  have hka : litArgsKey = ',' :: '"' :: 'a' :: "rgs\":".data := by decide
  have hke : litEnvKey = ',' :: '"' :: 'e' :: "nv\":".data := by decide
  have hkc : litCwdKey = ',' :: '"' :: 'c' :: "wd\":".data := by decide
  cases a1 with
  | none =>
    cases a2 with
    | none =>
      simp only [optPart, List.nil_append] at h
      obtain ⟨he, hc⟩ := envTail_cancel _ _ _ _ h
      exact ⟨rfl, he, hc⟩
    | some a =>
      exfalso
      cases e1 with
      | some e =>
        simp only [optPart, List.nil_append, hka, hke, List.cons_append,
          List.append_assoc] at h
        simp at h
      | none =>
        cases c1 with
        | some c =>
          simp only [optPart, List.nil_append, hka, hkc, List.cons_append,
            List.append_assoc] at h
          simp at h
        | none =>
          simp only [optPart, List.nil_append, hka, List.cons_append] at h
          simp at h
  | some a =>
    cases a2 with
    | none =>
      exfalso
      cases e2 with
      | some e =>
        simp only [optPart, List.nil_append, hka, hke, List.cons_append,
          List.append_assoc] at h
        simp at h
      | none =>
        cases c2 with
        | some c =>
          simp only [optPart, List.nil_append, hka, hkc, List.cons_append,
            List.append_assoc] at h
          simp at h
        | none =>
          simp only [optPart, List.nil_append, hka, List.cons_append] at h
          simp at h
    | some a' =>
      simp only [optPart, List.append_assoc] at h
      have h2 := List.append_cancel_left h
      obtain ⟨ha, hr⟩ := serArr_cancel _ _ _ _ h2
      obtain ⟨he, hc⟩ := envTail_cancel _ _ _ _ hr
      exact ⟨congrArg some ha, he, hc⟩

/-- The serialized optional `headers` field (with the closing brace)
cancels. -/
theorem headersTail_cancel (h1 h2 : Option (List (Str × Str)))
    (h : optPart litHeadersKey serObj h1 ++ [ '\x7d' ] =
         optPart litHeadersKey serObj h2 ++ [ '\x7d' ]) :
    h1 = h2 := by
  have hk : litHeadersKey = ',' :: "\"headers\":".data := by decide
  cases h1 with
  | none =>
    cases h2 with
    | none => rfl
    | some hs =>
      exfalso
      simp only [optPart, List.nil_append, hk, List.cons_append, List.append_assoc] at h
      simp at h
  | some hs =>
    cases h2 with
    | none =>
      exfalso
      simp only [optPart, List.nil_append, hk, List.cons_append, List.append_assoc] at h
      simp at h
    | some hs' =>
      simp only [optPart, List.append_assoc] at h
      have h2 := List.append_cancel_left h
      exact congrArg some (serObj_cancel _ _ _ _ h2).1

/-- The fingerprint is injective on spec values. -/
theorem specFingerprint_inj (s1 s2 : UpstreamSpec)
    (h : specFingerprint s1 = specFingerprint s2) : s1 = s2 := by
  cases s1 with
  | http a =>
    cases s2 with
    | http b =>
      simp only [specFingerprint, List.append_assoc] at h
      have h2 := List.append_cancel_left h
      obtain ⟨hu, hr⟩ := jstr_cancel _ _ _ _ h2
      have hh := headersTail_cancel _ _ hr
      cases a
      cases b
      simp_all
    | stdio b =>
      exact absurd (by simpa [specFingerprint, List.append_assoc] using h)
        (append_ne_of_nth litHttpPre litStdioPre 14 (by decide) (by decide) (by decide) _ _)
  | stdio a =>
    cases s2 with
    | http b =>
      exact absurd (by simpa [specFingerprint, List.append_assoc] using h)
        (append_ne_of_nth litStdioPre litHttpPre 14 (by decide) (by decide) (by decide) _ _)
    | stdio b =>
      simp only [specFingerprint, List.append_assoc] at h
      have h2 := List.append_cancel_left h
      obtain ⟨hc, hr⟩ := jstr_cancel _ _ _ _ h2
      obtain ⟨ha, he, hcwd⟩ := stTail_cancel _ _ _ _ _ _ hr
      cases a
      cases b
      simp_all

/-- Key-value sets equal regardless of order: the claim's semantic equality on
env and header maps. -/
def kvSetEq (m1 m2 : List (Str × Str)) : Bool :=
  m1.all (fun p => decide (p ∈ m2)) && m2.all (fun p => decide (p ∈ m1))

/-- The claim's semantic equality of specifications: same transport, url,
command, args in order and cwd, and env/header key-value sets compared
regardless of map key order. -/
def semEqSpec : UpstreamSpec → UpstreamSpec → Bool
  | .http a, .http b =>
    a.url = b.url &&
    (match a.headers, b.headers with
     | none, none => true
     | some m1, some m2 => kvSetEq m1 m2
     | _, _ => false)
  | .stdio a, .stdio b =>
    a.command = b.command && a.args = b.args && a.cwd = b.cwd &&
    (match a.env, b.env with
     | none, none => true
     | some m1, some m2 => kvSetEq m1 m2
     | _, _ => false)
  | _, _ => false

theorem kvSetEq_refl (m : List (Str × Str)) : kvSetEq m m = true := by
  simp [kvSetEq, List.all_eq_true]

theorem semEqSpec_refl (s : UpstreamSpec) : semEqSpec s s = true := by
  cases s with
  | http a => simp [semEqSpec, kvSetEq_refl]; cases a.headers <;> simp [kvSetEq_refl]
  | stdio a => simp [semEqSpec, kvSetEq_refl]; cases a.env <;> simp [kvSetEq_refl]

/-- C5 (amended): the fingerprint is the `JSON.stringify` of the spec object,
which preserves record key insertion order — so fingerprints are equal exactly
when the specs are structurally equal (env and header maps compared as ordered
lists). Consequently any semantic change still yields a different fingerprint,
but the claimed converse fails: two semantically equal specs whose env or
header maps list their keys in different orders have different fingerprints,
see the counterexample. -/
theorem C5_fingerprint_injective (s1 s2 : UpstreamSpec) :
    (specFingerprint s1 = specFingerprint s2 ↔ s1 = s2)
    ∧ (semEqSpec s1 s2 = false → specFingerprint s1 ≠ specFingerprint s2) := by
  constructor
  · exact ⟨specFingerprint_inj s1 s2, fun hs => by rw [hs]⟩
  · intro hsem hfp
    have heq := specFingerprint_inj s1 s2 hfp
    subst heq
    rw [semEqSpec_refl] at hsem
    exact absurd hsem (by simp)

def c5Env1 : List (Str × Str) := [("A".data, "1".data), ("B".data, "2".data)]
def c5Env2 : List (Str × Str) := [("B".data, "2".data), ("A".data, "1".data)]
def c5Spec1 : UpstreamSpec :=
  .stdio { command := "node".data, args := none, env := some c5Env1, cwd := none }
def c5Spec2 : UpstreamSpec :=
  .stdio { command := "node".data, args := none, env := some c5Env2, cwd := none }

/-- C5 counterexample: two semantically equal specifications — same command
and the same env key-value set, listed in different key order — have
different fingerprints, because `JSON.stringify` keeps record key insertion
order and sorts nothing. -/
theorem C5_counterexample :
    semEqSpec c5Spec1 c5Spec2 = true ∧ specFingerprint c5Spec1 ≠ specFingerprint c5Spec2 :=
  ⟨by decide, by decide⟩

def c5SpecB : UpstreamSpec :=
  .stdio { command := "deno".data, args := none, env := some c5Env1, cwd := none }

/-- Witness for C5: a semantic change (different command) gives a different
fingerprint, and the structural-equality reading of fingerprint equality at
two concrete specs. -/
theorem C5_fingerprint_injective_witness :
    semEqSpec c5Spec1 c5SpecB = false ∧
    specFingerprint c5Spec1 ≠ specFingerprint c5SpecB ∧
    (specFingerprint c5Spec1 = specFingerprint c5Spec1 ↔ c5Spec1 = c5Spec1) :=
  ⟨by decide, (C5_fingerprint_injective c5Spec1 c5SpecB).2 (by decide),
   (C5_fingerprint_injective c5Spec1 c5Spec1).1⟩

/-- C10: for every authorized POST /mcp request object whose `method` field is
absent or not a string, the gateway returns a JSON-RPC error with code -32600
and message "Invalid JSON-RPC request: missing method.", with id equal to the
request's id (null when absent), without contacting any upstream (the result
is the same for every oracle, which is consulted for all upstream-reaching
methods). -/
theorem C10_missing_method (oracle : JsonRpcRequest → Except UpstreamHttpErrorT JsonRpcResponse)
    (version : Str) (req : JsonRpcRequest)
    (h : req.method = none ∨ req.method = some MethodV.nonString) :
    handleRequestObjectM oracle version req =
      .ok (some (makeError (req.id.getD RpcId.null) (-32600) msgMissingMethod none)) := by
  rcases h with h | h <;> simp [handleRequestObjectM, h]

def c10Req : JsonRpcRequest := { id := some (RpcId.num 7), method := none, params := none }

def c10Oracle : JsonRpcRequest → Except UpstreamHttpErrorT JsonRpcResponse :=
  fun req => .ok (makeResult (req.id.getD RpcId.null) JsonV.null)

/-- Witness for C10 at a concrete request with an absent method and id 7. -/
theorem C10_missing_method_witness :
    (c10Req.method = none ∨ c10Req.method = some MethodV.nonString) ∧
      handleRequestObjectM c10Oracle [] c10Req =
        .ok (some (makeError (RpcId.num 7) (-32600) msgMissingMethod none)) :=
  ⟨Or.inl rfl, C10_missing_method c10Oracle [] c10Req (Or.inl rfl)⟩

end Mcpx
